import Mathlib

/-!
Verification of the chunk/world subsystem of a streaming voxel world
(Rust sources under src/: world/chunk.rs, world/world.rs, objects/block.rs,
objects/component.rs).

Modelling conventions:
- Rust `i32` values are modelled as `Int`; `usize` as `Nat`; `u8` block ids as
  `Nat` (the source only constructs the ids 0..4 and compares them).
- `Vec<u8>` is modelled as `List Nat`.  The source's `v.get(i).unwrap_or(&Block::Air.id)`
  is `v.getD i Block.Air.id`; direct indexing `v[i]` (which panics out of
  bounds) is modelled as `v.getD i Block.Air.id` and only used under
  hypotheses that keep it in bounds.
- `f32` camera/target coordinates are modelled as `ℚ`; the Rust cast
  `as i32` (truncation toward zero) is `Rat.num.tdiv Rat.den`.
- The background thread pool and per-chunk channels are modelled by an
  explicit receive oracle (what `try_recv` returns on a given tick), and for
  the build protocol by a counter of outstanding submissions.
-/

set_option maxHeartbeats 1000000

/-- Material class of a block (src/objects/block_material.rs, referenced from
the sources; the file itself is not under src/ — its two variants are fixed by
the spec and by every use site). -/
inductive BlockMaterial where
  | Solid
  | Transparent
deriving DecidableEq, Repr

/-- Catalog entry for a block id (src/objects/block.rs).  The per-face atlas
coordinates, render scale and opacity take no part in any claim; the fields
used by the claims are `id`, `material` and `name`. -/
structure Block where
  name : String
  id : Nat
  material : BlockMaterial
deriving DecidableEq, Repr

/-- Catalog constant (src/objects/component.rs). -/
def Block.Air : Block := { name := "air", id := 0, material := BlockMaterial.Transparent }

/-- Catalog constant (src/objects/component.rs). -/
def Block.Grass : Block := { name := "grass", id := 1, material := BlockMaterial.Solid }

/-- Catalog constant (src/objects/component.rs). -/
def Block.Dirt : Block := { name := "dirt", id := 2, material := BlockMaterial.Solid }

/-- Catalog constant (src/objects/component.rs). -/
def Block.Stone : Block := { name := "stone", id := 3, material := BlockMaterial.Solid }

/-- Catalog constant (src/objects/component.rs). -/
def Block.Water : Block := { name := "water", id := 4, material := BlockMaterial.Transparent }

/-- Total catalog lookup, `Block::block` (src/objects/component.rs): unknown
ids default to air. -/
def Block.block (id : Nat) : Block :=
  match id with
  | 0 => Block.Air
  | 1 => Block.Grass
  | 2 => Block.Dirt
  | 3 => Block.Stone
  | 4 => Block.Water
  | _ => Block.Air

/-- Mesh vertex (src/mesh/vertex.rs): world-space position, atlas UV and
opacity.  The `f32` components are modelled as `ℚ`; no claim computes vertex
data, the type only gives `ChunkMesh` its faithful shape. -/
structure Vertex where
  position : ℚ × ℚ × ℚ
  uv : ℚ × ℚ
  opacity : ℚ
deriving DecidableEq

/-- Chunk geometry (src/world/chunk_mesh.rs): independent opaque and
transparent vertex/index list pairs. -/
structure ChunkMesh where
  vertices : List Vertex
  indices : List Nat
  alpha_vertices : List Vertex
  alpha_indices : List Nat
deriving DecidableEq

/-- Chunk state (the `Chunk` struct of src/world/chunk.rs).  The crossbeam
sender/receiver pair is not state proper and is modelled by the receive
oracle fed to `Chunk.update`.  The `needs_buffer` field is modelled from the
spec: src/world/chunk.rs lacks it, yet src/world/world.rs reads and writes it
through `needs_buffer`/`set_needs_buffer`, and the spec lists a "needs new
GPU buffer" flag among the chunk's mesh state. -/
structure Chunk where
  local_position : Int × Int
  world_position : Int × Int
  blocks : List Nat
  mesh : ChunkMesh
  mesh_generated : Bool
  generating_mesh : Bool
  left : Option (List Nat)
  right : Option (List Nat)
  front : Option (List Nat)
  back : Option (List Nat)
  needs_buffer : Bool

/-- Chunk width constant, `Chunk::WIDTH = 16` (src/world/chunk.rs). -/
def Chunk.WIDTH : Int := 16

/-- Chunk height constant, `Chunk::HEIGHT = 256` (src/world/chunk.rs). -/
def Chunk.HEIGHT : Int := 256

/-- Chunk depth constant, `Chunk::DEPTH = 16` (src/world/chunk.rs). -/
def Chunk.DEPTH : Int := 16

/-- Chunk volume, `Chunk::SIZE = WIDTH * HEIGHT * DEPTH` (src/world/chunk.rs). -/
def Chunk.SIZE : Int := Chunk.WIDTH * Chunk.HEIGHT * Chunk.DEPTH

/-- Flat voxel index, `Chunk::xyz_to_index` (src/world/chunk.rs):
`(x + z * Chunk::WIDTH + y * Chunk::HEIGHT) as usize`.  The `as usize` cast is
modelled with `Int.toNat`; every call site in the source passes in-range
coordinates, for which the cast is the identity. -/
def Chunk.xyz_to_index (x y z : Int) : Nat :=
  (x + z * Chunk.WIDTH + y * Chunk.HEIGHT).toNat

/-- Inverse index decoding, `Chunk::index_to_xyz` (src/world/chunk.rs).  The
source casts `index as i32` and uses `i32` division/remainder by
`Chunk::HEIGHT = 256` and `Chunk::WIDTH = 16`; for the nonnegative indices in
question this agrees with `Nat` division, used here. -/
def Chunk.index_to_xyz (index : Nat) : Int × Int × Int :=
  let i := index
  let y := i / 256
  let yr := i % 256
  let z := yr / 16
  let zr := yr % 16
  ((zr : Int), (y : Int), (z : Int))

/-- Chunk-coordinate to world-origin conversion, `Chunk::local_to_world_position`
(src/world/chunk.rs). -/
def Chunk.local_to_world_position (local_position : Int × Int) : Int × Int :=
  (local_position.1 * Chunk.WIDTH, local_position.2 * Chunk.DEPTH)

/-- Face occlusion test, `Chunk::is_hidden` (src/world/chunk.rs): the face of
`block` toward `other` is hidden when `other` is solid, or when both are the
water block. -/
def Chunk.is_hidden (block other : Block) : Bool :=
  if other.material = BlockMaterial.Solid then
    true
  else if other.id = Block.Water.id ∧ block.id = Block.Water.id then
    true
  else
    false

/-- Visibility of the -x face, `Chunk::has_left` (src/world/chunk.rs). -/
def Chunk.has_left (blocks left : List Nat) (index : Nat) : Bool :=
  let xyz := Chunk.index_to_xyz index
  let x := xyz.1
  let y := xyz.2.1
  let z := xyz.2.2
  let block := Block.block (blocks.getD index Block.Air.id)
  if x = 0 then
    let l := left.getD (Chunk.xyz_to_index (Chunk.WIDTH - 1) y z) Block.Air.id
    let other := Block.block l
    !(Chunk.is_hidden block other)
  else
    let l := blocks.getD (Chunk.xyz_to_index (x - 1) y z) Block.Air.id
    let other := Block.block l
    !(Chunk.is_hidden block other)

/-- Visibility of the +x face, `Chunk::has_right` (src/world/chunk.rs). -/
def Chunk.has_right (blocks right : List Nat) (index : Nat) : Bool :=
  let xyz := Chunk.index_to_xyz index
  let x := xyz.1
  let y := xyz.2.1
  let z := xyz.2.2
  let block := Block.block (blocks.getD index Block.Air.id)
  if x + 1 = Chunk.WIDTH then
    let r := right.getD (Chunk.xyz_to_index 0 y z) Block.Air.id
    let other := Block.block r
    !(Chunk.is_hidden block other)
  else
    let r := blocks.getD (Chunk.xyz_to_index (x + 1) y z) Block.Air.id
    let other := Block.block r
    !(Chunk.is_hidden block other)

/-- Visibility of the -z face, `Chunk::has_front` (src/world/chunk.rs). -/
def Chunk.has_front (blocks front : List Nat) (index : Nat) : Bool :=
  let xyz := Chunk.index_to_xyz index
  let x := xyz.1
  let y := xyz.2.1
  let z := xyz.2.2
  let block := Block.block (blocks.getD index Block.Air.id)
  if z = 0 then
    let f := front.getD (Chunk.xyz_to_index x y (Chunk.DEPTH - 1)) Block.Air.id
    let other := Block.block f
    !(Chunk.is_hidden block other)
  else
    let f := blocks.getD (Chunk.xyz_to_index x y (z - 1)) Block.Air.id
    let other := Block.block f
    !(Chunk.is_hidden block other)

/-- Visibility of the +z face, `Chunk::has_back` (src/world/chunk.rs). -/
def Chunk.has_back (blocks back : List Nat) (index : Nat) : Bool :=
  let xyz := Chunk.index_to_xyz index
  let x := xyz.1
  let y := xyz.2.1
  let z := xyz.2.2
  let block := Block.block (blocks.getD index Block.Air.id)
  if z + 1 = Chunk.DEPTH then
    let b := back.getD (Chunk.xyz_to_index x y 0) Block.Air.id
    let other := Block.block b
    !(Chunk.is_hidden block other)
  else
    let b := blocks.getD (Chunk.xyz_to_index x y (z + 1)) Block.Air.id
    let other := Block.block b
    !(Chunk.is_hidden block other)

/-- Visibility of the +y face, `Chunk::has_top` (src/world/chunk.rs): the
lookup at `index + Chunk::HEIGHT` falls back to air above the build volume. -/
def Chunk.has_top (blocks : List Nat) (index : Nat) : Bool :=
  let block := Block.block (blocks.getD index Block.Air.id)
  let above := blocks.getD (index + 256) Block.Air.id
  let other := Block.block above
  !(Chunk.is_hidden block other)

/-- Largest `usize` value, `std::num::NonZeroUsize::MAX_VALUE` as used by
`Chunk::has_bottom` as an in-band sentinel for the bottom voxel layer. -/
def usizeMax : Nat := 2 ^ 64 - 1

/-- Visibility of the -y face, `Chunk::has_bottom` (src/world/chunk.rs).  For
`index < Chunk::HEIGHT` the index is replaced by the usize-max sentinel, whose
lookup yields air and which is then recognized to force the face visible. -/
def Chunk.has_bottom (blocks : List Nat) (index : Nat) : Bool :=
  let idx := if index < 256 then usizeMax else index
  let below := blocks.getD (idx - 256) Block.Air.id
  let other := Block.block below
  if idx = usizeMax then
    true
  else
    !(Chunk.is_hidden (Block.block (blocks.getD idx Block.Air.id)) other)

/-- Empty mesh, the initial `mesh` value of `Chunk::new` (src/world/chunk.rs). -/
def ChunkMesh.empty : ChunkMesh :=
  { vertices := [], indices := [], alpha_vertices := [], alpha_indices := [] }

/-- Inner column-fill loop of `Chunk::generate_blocks` (src/world/chunk.rs):
`for y in 0..(chunk_height + 1)` writes water above the height `n` and grass at
or below it, where `chunk_height = n.max(60)`. -/
def Chunk.fill_column (n : Int) (x z : Int) (b : List Nat) : List Nat :=
  (List.range (max n 60 + 1).toNat).foldl
    (fun b (yi : Nat) =>
      b.set (Chunk.xyz_to_index x (yi : Int) z)
        (if (yi : Int) > n then Block.Water.id else Block.Grass.id))
    b

/-- Terrain fill, `Chunk::generate_blocks` (src/world/chunk.rs).  The seeded
Perlin-fbm noise is floating point and is abstracted by the pure height
function `hfn`, standing for
`fun wx wz => ((noise.get [wx + 0.01, wz + 0.01] + 2.0) * 32.0) as i32`
applied to world coordinates; the block array starts as all air
(`vec![Block::Air.id; Chunk::SIZE]`). -/
def Chunk.generate_blocks (hfn : Int → Int → Int) (world_position : Int × Int) : List Nat :=
  (List.range 16).foldl
    (fun b (xi : Nat) =>
      (List.range 16).foldl
        (fun b (zi : Nat) =>
          Chunk.fill_column (hfn ((xi : Int) + world_position.1) ((zi : Int) + world_position.2))
            (xi : Int) (zi : Int) b)
        b)
    (List.replicate Chunk.SIZE.toNat Block.Air.id)

/-- Chunk construction, `Chunk::new` (src/world/chunk.rs): fresh flags, no
neighbor snapshots, generated voxels. -/
def Chunk.new (hfn : Int → Int → Int) (local_position : Int × Int) : Chunk :=
  { local_position := local_position
    world_position := Chunk.local_to_world_position local_position
    blocks := Chunk.generate_blocks hfn (Chunk.local_to_world_position local_position)
    mesh := ChunkMesh.empty
    mesh_generated := false
    generating_mesh := false
    left := none
    right := none
    front := none
    back := none
    needs_buffer := false }

/-- All four neighbor snapshots present — the pattern guard of
`Chunk::generate_mesh` (src/world/chunk.rs). -/
def Chunk.all_neighbors (c : Chunk) : Bool :=
  c.left.isSome && c.right.isSome && c.front.isSome && c.back.isSome

/-- Build submission, `Chunk::generate_mesh` (src/world/chunk.rs): returns
unchanged unless all four snapshots are present, otherwise flags a build in
flight and submits the scan over snapshot copies to the pool (the submitted
closure itself runs on a worker; its eventual result arrives through the
receive oracle of `Chunk.update`). -/
def Chunk.generate_mesh (c : Chunk) : Chunk :=
  if c.all_neighbors then
    { c with generating_mesh := true, mesh_generated := false }
  else
    c

/-- Condition under which `Chunk::update` on an empty channel submits a build:
nothing built, nothing in flight, and `generate_mesh` passes its snapshot
guard (src/world/chunk.rs). -/
def Chunk.submits (c : Chunk) : Bool :=
  !c.mesh_generated && !c.generating_mesh && c.all_neighbors

/-- Per-tick chunk driver, `Chunk::update` (src/world/chunk.rs).  `recv` is
what `self.receiver.try_recv()` yields this tick.  On a received mesh the
result is installed unconditionally and the in-flight flag cleared (the
`needs_buffer := true` mark is modelled from the spec, which has the chunk
"mark needs new GPU buffer" on receipt; src/world/chunk.rs lacks the field). -/
def Chunk.update (recv : Option ChunkMesh) (c : Chunk) : Chunk :=
  match recv with
  | some mesh =>
      { c with mesh := mesh, generating_mesh := false, mesh_generated := true,
               needs_buffer := true }
  | none =>
      if !c.mesh_generated && !c.generating_mesh then
        c.generate_mesh
      else
        c

/-- Snapshot setter `Chunk::set_left` (src/world/chunk.rs); the source stores
a clone of the passed array. -/
def Chunk.set_left (v : List Nat) (c : Chunk) : Chunk := { c with left := some v }

/-- Snapshot setter `Chunk::set_right` (src/world/chunk.rs). -/
def Chunk.set_right (v : List Nat) (c : Chunk) : Chunk := { c with right := some v }

/-- Snapshot setter `Chunk::set_front` (src/world/chunk.rs). -/
def Chunk.set_front (v : List Nat) (c : Chunk) : Chunk := { c with front := some v }

/-- Snapshot setter `Chunk::set_back` (src/world/chunk.rs). -/
def Chunk.set_back (v : List Nat) (c : Chunk) : Chunk := { c with back := some v }

/-- Modelled from the spec: `Chunk::clear_left`, called by `World::place_block`
but absent from src/world/chunk.rs.  Per spec §4.7 the neighbor's cached
snapshot is invalidated, "forcing it to refetch and remesh on the next tick",
so the snapshot becomes absent and the built-mesh flag is dropped. -/
def Chunk.clear_left (c : Chunk) : Chunk :=
  { c with left := none, mesh_generated := false }

/-- Modelled from the spec: `Chunk::clear_right`, see `Chunk.clear_left`. -/
def Chunk.clear_right (c : Chunk) : Chunk :=
  { c with right := none, mesh_generated := false }

/-- Modelled from the spec: `Chunk::clear_front`, see `Chunk.clear_left`. -/
def Chunk.clear_front (c : Chunk) : Chunk :=
  { c with front := none, mesh_generated := false }

/-- Modelled from the spec: `Chunk::clear_back`, see `Chunk.clear_left`. -/
def Chunk.clear_back (c : Chunk) : Chunk :=
  { c with back := none, mesh_generated := false }

/-- Modelled from the spec: `Chunk::place_block_at_world_position`, called by
`World::place_block` but absent from src/world/chunk.rs.  Per spec §4.7 the
edit mutates the owning chunk's voxel array directly at the edited cell and
marks the chunk for remesh; the id written comes from code outside src/
(hotbar selection) and is taken as the parameter `bid`. -/
def Chunk.place_block_at_world_position (bid : Nat) (pos : Int × Int × Int) (c : Chunk) : Chunk :=
  { c with
      blocks := c.blocks.set
        (Chunk.xyz_to_index (pos.1 - c.world_position.1) pos.2.1 (pos.2.2 - c.world_position.2))
        bid
      mesh_generated := false }

/-- Map lookup over an association-list model of
`HashMap<(i32, i32), RefCell<Chunk>>` / `HashMap<(i32, i32), ChunkBuffer>`
(src/world/world.rs): first binding of the key wins. -/
def mlookup {α : Type} (m : List ((Int × Int) × α)) (k : Int × Int) : Option α :=
  match m with
  | [] => none
  | (k', v) :: t => if k' = k then some v else mlookup t k

/-- Map insert for the association-list map model: overwrites the first
binding of the key in place, else appends. -/
def minsert {α : Type} (m : List ((Int × Int) × α)) (k : Int × Int) (v : α) :
    List ((Int × Int) × α) :=
  match m with
  | [] => [(k, v)]
  | (k', v') :: t => if k' = k then (k, v) :: t else (k', v') :: minsert t k v

/-- Map removal for the association-list map model: drops the first binding
of the key, modelling `HashMap::remove`. -/
def merase {α : Type} (m : List ((Int × Int) × α)) (k : Int × Int) :
    List ((Int × Int) × α) :=
  match m with
  | [] => []
  | (k', v') :: t => if k' = k then t else (k', v') :: merase t k

/-- GPU-side counterpart of a mesh, `ChunkBuffer` (src/world/chunk_buffer.rs).
The four wgpu buffer handles are GPU resources outside the model; the vertex
and index counts, which `ChunkBuffer::new` takes from the mesh lists, are
kept. -/
structure ChunkBuffer where
  vertex_count : Nat
  index_count : Nat
  alpha_vertex_count : Nat
  alpha_index_count : Nat
deriving DecidableEq

/-- Buffer construction, `ChunkBuffer::new` (src/world/chunk_buffer.rs). -/
def ChunkBuffer.new (mesh : ChunkMesh) : ChunkBuffer :=
  { vertex_count := mesh.vertices.length
    index_count := mesh.indices.length
    alpha_vertex_count := mesh.alpha_vertices.length
    alpha_index_count := mesh.alpha_indices.length }

/-- World state (the `World` struct of src/world/world.rs).  The thread pool
and the noise generator are not data: the pool is abstracted by the receive
oracle of `World.update` and the noise by the height function threaded into
generation. -/
structure World where
  chunks : List ((Int × Int) × Chunk)
  render_distance : Int
  buffers : List ((Int × Int) × ChunkBuffer)
  vertex_count : Nat

/-- World construction, `World::new` (src/world/world.rs): empty registries. -/
def World.new (render_distance : Int) : World :=
  { chunks := [], render_distance := render_distance, buffers := [], vertex_count := 0 }

/-- Truncation of an `f32` to `i32`, the Rust `as i32` cast, on the rational
model of floats: rounding toward zero (saturation at the i32 range is outside
the coordinates any claim uses). -/
def f32_as_i32 (q : ℚ) : Int :=
  q.num.tdiv (q.den : Int)

/-- Observer chunk coordinate, `World::to_local_position` (src/world/world.rs):
`(position.x as i32 / Chunk::WIDTH, position.z as i32 / Chunk::DEPTH)` with
Rust `i32` division, which truncates toward zero.  The argument is the (x, z)
pair of the camera position. -/
def World.to_local_position (position : ℚ × ℚ) : Int × Int :=
  let x := f32_as_i32 position.1
  let z := f32_as_i32 position.2
  (x.tdiv Chunk.WIDTH, z.tdiv Chunk.DEPTH)

/-- Half-open integer range `a..b`, the iteration space of the Rust `for`
loops over chunk windows (src/world/world.rs). -/
def intRange (a b : Int) : List Int :=
  (List.range (b - a).toNat).map (fun (i : Nat) => a + (i : Int))

/-- Initial streaming fill, `World::generate` (src/world/world.rs): first pass
inserts a fresh chunk at every window coordinate; second pass walks the whole
registry and installs all four neighbor snapshots on every chunk, substituting
`vec![]` for a missing neighbor.  The registry iteration of the second pass is
modelled as a fold over the registry's key list; only snapshots change during
the pass, so the order is immaterial. -/
def World.generate (hfn : Int → Int → Int) (camera_position : ℚ × ℚ) (w : World) : World :=
  let c := World.to_local_position camera_position
  let r := w.render_distance
  let m1 := (intRange (c.1 - (r + 1)) (c.1 + (r + 1))).foldl
    (fun m x =>
      (intRange (c.2 - (r + 1)) (c.2 + (r + 1))).foldl
        (fun m z => minsert m (x, z) (Chunk.new hfn (x, z)))
        m)
    w.chunks
  let m2 := (m1.map Prod.fst).foldl
    (fun m k =>
      match mlookup m k with
      | none => m
      | some ch =>
        let lft := match mlookup m (k.1 - 1, k.2) with
          | some n => n.blocks
          | none => []
        let rgt := match mlookup m (k.1 + 1, k.2) with
          | some n => n.blocks
          | none => []
        let fnt := match mlookup m (k.1, k.2 - 1) with
          | some n => n.blocks
          | none => []
        let bck := match mlookup m (k.1, k.2 + 1) with
          | some n => n.blocks
          | none => []
        minsert m k
          (Chunk.set_back bck (Chunk.set_front fnt (Chunk.set_right rgt (Chunk.set_left lft ch)))))
    m1
  { w with chunks := m2 }

/-- Accumulator of the per-coordinate loop body of `World::update`
(src/world/world.rs): the chunk registry, the old buffer registry being
drained, the next buffer registry being built, and the running vertex count. -/
structure UpdateAcc where
  chunks : List ((Int × Int) × Chunk)
  buffers : List ((Int × Int) × ChunkBuffer)
  next_buffers : List ((Int × Int) × ChunkBuffer)
  vertex_count : Nat

/-- Snapshot-resolution step of the `World::update` loop body
(src/world/world.rs): resolve at most one missing neighbor snapshot per tick,
checked in the fixed order left, right, front, back, pulling a copy of the
sibling chunk's voxel array when that sibling is resident. -/
def World.resolve_snapshot (m : List ((Int × Int) × Chunk)) (k : Int × Int) (ch : Chunk) :
    Chunk :=
  if ch.left = none then
    match mlookup m (k.1 - 1, k.2) with
    | some n => Chunk.set_left n.blocks ch
    | none => ch
  else if ch.right = none then
    match mlookup m (k.1 + 1, k.2) with
    | some n => Chunk.set_right n.blocks ch
    | none => ch
  else if ch.front = none then
    match mlookup m (k.1, k.2 - 1) with
    | some n => Chunk.set_front n.blocks ch
    | none => ch
  else if ch.back = none then
    match mlookup m (k.1, k.2 + 1) with
    | some n => Chunk.set_back n.blocks ch
    | none => ch
  else
    ch

/-- Buffer reconciliation step of the `World::update` loop body
(src/world/world.rs): carry the old buffer forward unless the chunk flags a
rebuild (or has a fresh mesh with no buffer yet), in which case a new buffer
is cut from the current mesh and the flag cleared.  Returns the new
next-buffer registry, the running vertex count, and the possibly-updated
chunk. -/
def World.reconcile_buffer (buffers next_buffers : List ((Int × Int) × ChunkBuffer))
    (vertex_count : Nat) (k : Int × Int) (ch : Chunk) :
    List ((Int × Int) × ChunkBuffer) × Nat × Chunk :=
  match mlookup buffers k with
  | some b =>
      if ch.needs_buffer then
        let buffer := ChunkBuffer.new ch.mesh
        (minsert next_buffers k buffer, vertex_count + buffer.vertex_count,
          { ch with needs_buffer := false })
      else
        (minsert next_buffers k b, vertex_count + b.vertex_count, ch)
  | none =>
      if ch.mesh_generated then
        let buffer := ChunkBuffer.new ch.mesh
        (minsert next_buffers k buffer, vertex_count + buffer.vertex_count,
          { ch with needs_buffer := false })
      else
        (next_buffers, vertex_count, ch)

/-- Loop body of `World::update` for one window coordinate
(src/world/world.rs): create-and-insert the chunk if absent, resolve at most
one missing snapshot (`World.resolve_snapshot`), run the chunk's per-tick
driver with the oracle's `try_recv` outcome, and reconcile the GPU buffer
(`World.reconcile_buffer`).  The `RefCell` in-place mutations become a single
write-back of the final chunk value. -/
def World.update_cell (hfn : Int → Int → Int) (recv : Int × Int → Option ChunkMesh)
    (acc : UpdateAcc) (k : Int × Int) : UpdateAcc :=
  let withChunk :=
    match mlookup acc.chunks k with
    | some ch => (acc.chunks, ch)
    | none =>
        let ch := Chunk.new hfn k
        (minsert acc.chunks k ch, ch)
  let m := withChunk.1
  let ch := World.resolve_snapshot m k withChunk.2
  let ch := Chunk.update (recv k) ch
  let reconciled := World.reconcile_buffer acc.buffers acc.next_buffers acc.vertex_count k ch
  { chunks := minsert m k reconciled.2.2
    buffers := merase acc.buffers k
    next_buffers := reconciled.1
    vertex_count := reconciled.2.1 }

/-- Streaming tick, `World::update` (src/world/world.rs): iterate the
`(2R+2) x (2R+2)` window around the observer's chunk coordinate, run
`World.update_cell` at each coordinate, and finally replace the buffer
registry by the freshly built one (`self.buffers = next_buffers`), dropping
every buffer not re-inserted this tick.  `recv` tells, per chunk, what its
`try_recv` yields this tick. -/
def World.update (hfn : Int → Int → Int) (recv : Int × Int → Option ChunkMesh)
    (camera_position : ℚ × ℚ) (w : World) : World :=
  let c := World.to_local_position camera_position
  let r := w.render_distance
  let window :=
    (intRange (c.1 - (r + 1)) (c.1 + (r + 1))).flatMap
      (fun x => (intRange (c.2 - (r + 1)) (c.2 + (r + 1))).map (fun z => (x, z)))
  let acc := window.foldl (World.update_cell hfn recv)
    { chunks := w.chunks, buffers := w.buffers, next_buffers := [], vertex_count := 0 }
  { w with chunks := acc.chunks, buffers := acc.next_buffers, vertex_count := acc.vertex_count }

/-- Hit-face enumeration (src/objects/block_face.rs). -/
inductive BlockFace where
  | NoFace
  | Left
  | Right
  | Front
  | Back
  | Top
  | Bottom
deriving DecidableEq, Repr

/-- Ray-pick result, `Target` (src/objects/target.rs).  Its `position` field
is a `Vector3<f32>` but always holds the integral voxel coordinate
`vec3(x as f32, y as f32, z as f32)` built by `World::get_target`, so it is
modelled as the integer triple. -/
structure Target where
  position : Int × Int × Int
  face : BlockFace
  name : String

/-- Chunk lookup by world coordinate, `World::get_chunk` (src/world/world.rs):
`(x as f32 / Chunk::WIDTH as f32).floor() as i32` — an exact floored division
by 16 for every i32 magnitude below 2^24, modelled as `Int.fdiv`. -/
def World.get_chunk (w : World) (x _y z : Int) : Option Chunk :=
  let cx := Int.fdiv x Chunk.WIDTH
  let cz := Int.fdiv z Chunk.DEPTH
  mlookup w.chunks (cx, cz)

/-- Face-adjacent cell derived from a target, the `spot` match of
`World::place_block` (src/world/world.rs); `BlockFace::None` hits the
`_ => return` arm, modelled as `none`.  The source computes `spot` in `f32`
and then floors each component; on the integral target coordinates this is
exactly the integer step below. -/
def World.derived_spot (t : Target) : Option (Int × Int × Int) :=
  match t.face with
  | BlockFace.Top => some (t.position.1, t.position.2.1 + 1, t.position.2.2)
  | BlockFace.Bottom => some (t.position.1, t.position.2.1 - 1, t.position.2.2)
  | BlockFace.Left => some (t.position.1, t.position.2.1, t.position.2.2 - 1)
  | BlockFace.Right => some (t.position.1, t.position.2.1, t.position.2.2 + 1)
  | BlockFace.Front => some (t.position.1 - 1, t.position.2.1, t.position.2.2)
  | BlockFace.Back => some (t.position.1 + 1, t.position.2.1, t.position.2.2)
  | BlockFace.NoFace => none

/-- Neighbor-snapshot invalidation chain of `World::place_block`
(src/world/world.rs): a single if/else-if ladder checked in the order
local x = 0, local x = WIDTH-1, local z = 0, local z = DEPTH-1, clearing the
corresponding cached snapshot of the one resident neighbor across that
boundary (the clear itself is modelled from the spec, see `Chunk.clear_left`).
A corner edit therefore invalidates only its x-neighbor. -/
def World.invalidate_neighbors (m : List ((Int × Int) × Chunk)) (cx cz lx lz : Int) :
    List ((Int × Int) × Chunk) :=
  if lx = 0 then
    match mlookup m (cx - 1, cz) with
    | some n => minsert m (cx - 1, cz) (Chunk.clear_right n)
    | none => m
  else if lx = Chunk.WIDTH - 1 then
    match mlookup m (cx + 1, cz) with
    | some n => minsert m (cx + 1, cz) (Chunk.clear_left n)
    | none => m
  else if lz = 0 then
    match mlookup m (cx, cz - 1) with
    | some n => minsert m (cx, cz - 1) (Chunk.clear_back n)
    | none => m
  else if lz = Chunk.DEPTH - 1 then
    match mlookup m (cx, cz + 1) with
    | some n => minsert m (cx, cz + 1) (Chunk.clear_front n)
    | none => m
  else
    m

/-- Block placement, `World::place_block` (src/world/world.rs).  The result is
`none` exactly when the source panics: `self.get_chunk(..).unwrap()` on a
cell whose chunk is not resident.  The placed id `bid` comes from code
outside src/ (the hotbar selection); the edited chunk is written back under
the key `get_chunk` found it by, and the single if/else-if chain afterwards
clears at most one neighbor snapshot. -/
def World.place_block (bid : Nat) (target : Option Target) (w : World) : Option World :=
  match target with
  | none => some w
  | some t =>
    match World.derived_spot t with
    | none => some w
    | some s =>
      match World.get_chunk w s.1 s.2.1 s.2.2 with
      | none => none
      | some ch =>
        let lx := |s.1 - ch.world_position.1|
        let lz := |s.2.2 - ch.world_position.2|
        let cx := ch.local_position.1
        let cz := ch.local_position.2
        let key := (Int.fdiv s.1 Chunk.WIDTH, Int.fdiv s.2.2 Chunk.DEPTH)
        let m := minsert w.chunks key (Chunk.place_block_at_world_position bid s ch)
        some { w with chunks := World.invalidate_neighbors m cx cz lx lz }

/-- Event alphabet of the per-chunk asynchronous build protocol (spec §4.3,
src/world/chunk.rs `Chunk::update`/`Chunk::generate_mesh` plus the state
touched by `World::update` snapshot resolution and `World::place_block`
edits).  `deliver` is a tick whose `try_recv` yields a completed mesh;
`tick` is a tick with an empty channel. -/
inductive BuildEvent where
  | deliver (mesh : ChunkMesh)
  | tick
  | setLeft (v : List Nat)
  | setRight (v : List Nat)
  | setFront (v : List Nat)
  | setBack (v : List Nat)
  | clearLeft
  | clearRight
  | clearFront
  | clearBack
  | edit (bid : Nat) (pos : Int × Int × Int)

/-- Transition of the build protocol on a chunk paired with the number of
submitted-but-unconsumed mesh builds (in a worker or sitting in the chunk's
channel).  A `tick` submits — and so increments the outstanding count —
exactly under `Chunk.submits`, mirroring `pool.execute` in
`Chunk::generate_mesh`. -/
def buildStep (s : Chunk × Nat) (e : BuildEvent) : Chunk × Nat :=
  match e with
  | BuildEvent.deliver mesh => (Chunk.update (some mesh) s.1, s.2 - 1)
  | BuildEvent.tick => (Chunk.update none s.1, if Chunk.submits s.1 then s.2 + 1 else s.2)
  | BuildEvent.setLeft v => (Chunk.set_left v s.1, s.2)
  | BuildEvent.setRight v => (Chunk.set_right v s.1, s.2)
  | BuildEvent.setFront v => (Chunk.set_front v s.1, s.2)
  | BuildEvent.setBack v => (Chunk.set_back v s.1, s.2)
  | BuildEvent.clearLeft => (Chunk.clear_left s.1, s.2)
  | BuildEvent.clearRight => (Chunk.clear_right s.1, s.2)
  | BuildEvent.clearFront => (Chunk.clear_front s.1, s.2)
  | BuildEvent.clearBack => (Chunk.clear_back s.1, s.2)
  | BuildEvent.edit bid pos => (Chunk.place_block_at_world_position bid pos s.1, s.2)

/-- Validity of an event in a state: a mesh can only be received if some
submission is outstanding — each submitted worker sends exactly once into the
chunk's otherwise untouched channel. -/
def buildValid (s : Chunk × Nat) (e : BuildEvent) : Prop :=
  match e with
  | BuildEvent.deliver _ => 1 ≤ s.2
  | _ => True

/-- States of the build protocol reachable from a freshly constructed chunk
with no outstanding submission, under valid event sequences. -/
inductive BuildReachable (hfn : Int → Int → Int) (lp : Int × Int) : Chunk × Nat → Prop where
  | init : BuildReachable hfn lp (Chunk.new hfn lp, 0)
  | step {s : Chunk × Nat} {e : BuildEvent} :
      BuildReachable hfn lp s → buildValid s e → BuildReachable hfn lp (buildStep s e)

/-- Helper: no face is ever hidden by an air neighbor. -/
theorem is_hidden_air (b : Block) : Chunk.is_hidden b Block.Air = false := by
  simp [Chunk.is_hidden, Block.Air, Block.Water]

/-- Helper: decoding inverts encoding on in-range coordinates. -/
theorem index_roundtrip_aux (x y z : Int) (hx0 : 0 ≤ x) (hx : x < 16) (hy0 : 0 ≤ y)
    (hy : y < 256) (hz0 : 0 ≤ z) (hz : z < 16) :
    Chunk.index_to_xyz (Chunk.xyz_to_index x y z) = (x, y, z) := by
  simp only [Chunk.index_to_xyz, Chunk.xyz_to_index, Chunk.WIDTH, Chunk.HEIGHT, Prod.mk.injEq]
  refine ⟨?_, ?_, ?_⟩ <;> omega

/-- Helper: the flat index of in-range coordinates is below the chunk volume. -/
theorem encode_lt_size (x y z : Int) (hx0 : 0 ≤ x) (hx : x < 16) (hy0 : 0 ≤ y)
    (hy : y < 256) (hz0 : 0 ≤ z) (hz : z < 16) :
    Chunk.xyz_to_index x y z < 65536 := by
  simp only [Chunk.xyz_to_index, Chunk.WIDTH, Chunk.HEIGHT]
  omega

/-- C9: voxel index arithmetic is a bijection on the chunk volume — the
encoding agrees with the spec formula `x + z*WIDTH + y*WIDTH*DEPTH` (the
source's `y * HEIGHT` coincides since HEIGHT = WIDTH*DEPTH = 256), decoding
inverts encoding on in-range coordinates, and every index below 65536 decodes
to an in-range triple that re-encodes to it, so decoding is injective on the
volume. -/
theorem xyz_index_bijection :
    ∀ x y z : Int, 0 ≤ x → x < 16 → 0 ≤ y → y < 256 → 0 ≤ z → z < 16 →
      ((Chunk.xyz_to_index x y z : Int) = x + z * Chunk.WIDTH + y * (Chunk.WIDTH * Chunk.DEPTH)
        ∧ Chunk.index_to_xyz (Chunk.xyz_to_index x y z) = (x, y, z))
      ∧ ∀ i : Nat, i < 65536 →
          (0 ≤ (Chunk.index_to_xyz i).1 ∧ (Chunk.index_to_xyz i).1 < 16
            ∧ 0 ≤ (Chunk.index_to_xyz i).2.1 ∧ (Chunk.index_to_xyz i).2.1 < 256
            ∧ 0 ≤ (Chunk.index_to_xyz i).2.2 ∧ (Chunk.index_to_xyz i).2.2 < 16)
          ∧ Chunk.xyz_to_index (Chunk.index_to_xyz i).1 (Chunk.index_to_xyz i).2.1
              (Chunk.index_to_xyz i).2.2 = i := by
  intro x y z hx0 hx hy0 hy hz0 hz
  refine ⟨⟨?_, index_roundtrip_aux x y z hx0 hx hy0 hy hz0 hz⟩, ?_⟩
  · simp only [Chunk.xyz_to_index, Chunk.WIDTH, Chunk.HEIGHT, Chunk.DEPTH]
    omega
  · intro i hi
    simp only [Chunk.index_to_xyz, Chunk.xyz_to_index, Chunk.WIDTH, Chunk.HEIGHT]
    refine ⟨⟨?_, ?_, ?_, ?_, ?_, ?_⟩, ?_⟩ <;> omega

/-- Witness for C9 at concrete coordinates and a concrete index. -/
theorem xyz_index_bijection_witness :
    Chunk.index_to_xyz (Chunk.xyz_to_index 3 7 5) = (3, 7, 5)
    ∧ Chunk.xyz_to_index (Chunk.index_to_xyz 12345).1 (Chunk.index_to_xyz 12345).2.1
        (Chunk.index_to_xyz 12345).2.2 = 12345 :=
  ⟨((xyz_index_bijection 3 7 5 (by decide) (by decide) (by decide) (by decide) (by decide)
      (by decide)).1).2,
    ((xyz_index_bijection 3 7 5 (by decide) (by decide) (by decide) (by decide) (by decide)
      (by decide)).2 12345 (by decide)).2⟩

/-- C3: the top/bottom visibility tests are total with air as the
out-of-volume default — every lookup at or beyond the array length yields
air, `has_bottom` is `true` on the whole bottom layer (the usize-max sentinel
branch), and `has_top` is `true` for every non-air voxel of the top layer. -/
theorem has_top_bottom_boundary_safe :
    ∀ blocks : List Nat, blocks.length = 65536 →
      ∀ index : Nat, index < 65536 →
        (∀ j : Nat, 65536 ≤ j → blocks.getD j Block.Air.id = Block.Air.id)
        ∧ (index < 256 → Chunk.has_bottom blocks index = true)
        ∧ (65280 ≤ index → blocks.getD index Block.Air.id ≠ Block.Air.id →
            Chunk.has_top blocks index = true) := by
  intro blocks hlen index hindex
  refine ⟨?_, ?_, ?_⟩
  · intro j hj
    exact List.getD_eq_default _ _ (by omega)
  · intro h
    simp [Chunk.has_bottom, h]
  · intro h _
    have habove : blocks.getD (index + 256) Block.Air.id = Block.Air.id :=
      List.getD_eq_default _ _ (by omega)
    simp only [Chunk.has_top, habove]
    rw [show Block.block Block.Air.id = Block.Air from rfl, is_hidden_air]
    rfl

/-- Witness for C3 on an all-grass chunk. -/
theorem has_top_bottom_boundary_safe_witness :
    Chunk.has_bottom (List.replicate 65536 1) 0 = true
    ∧ Chunk.has_top (List.replicate 65536 1) 65535 = true :=
  ⟨((has_top_bottom_boundary_safe (List.replicate 65536 1)
        (by rw [List.length_replicate]) 0 (by decide)).2).1 (by decide),
    ((has_top_bottom_boundary_safe (List.replicate 65536 1)
        (by rw [List.length_replicate]) 65535 (by decide)).2).2 (by decide)
      (by rw [List.getD_eq_getElem?_getD, List.getElem?_replicate]
          norm_num [Block.Air])⟩

/-- Helper: `has_right` at in-range coordinates away from the +x chunk edge
reads the in-chunk +x neighbor. -/
theorem has_right_interior (blocks right : List Nat) (x y z : Int) (hx0 : 0 ≤ x)
    (hx : x + 1 < 16) (hy0 : 0 ≤ y) (hy : y < 256) (hz0 : 0 ≤ z) (hz : z < 16) :
    Chunk.has_right blocks right (Chunk.xyz_to_index x y z) =
      !(Chunk.is_hidden (Block.block (blocks.getD (Chunk.xyz_to_index x y z) Block.Air.id))
          (Block.block (blocks.getD (Chunk.xyz_to_index (x + 1) y z) Block.Air.id))) := by
  have hdec := index_roundtrip_aux x y z hx0 (by omega) hy0 hy hz0 hz
  simp only [Chunk.has_right, hdec]
  rw [if_neg (by simp only [Chunk.WIDTH]; omega)]

/-- Helper: `has_left` at in-range coordinates away from the -x chunk edge
reads the in-chunk -x neighbor. -/
theorem has_left_interior (blocks left : List Nat) (x y z : Int) (hx0 : 0 < x)
    (hx : x < 16) (hy0 : 0 ≤ y) (hy : y < 256) (hz0 : 0 ≤ z) (hz : z < 16) :
    Chunk.has_left blocks left (Chunk.xyz_to_index x y z) =
      !(Chunk.is_hidden (Block.block (blocks.getD (Chunk.xyz_to_index x y z) Block.Air.id))
          (Block.block (blocks.getD (Chunk.xyz_to_index (x - 1) y z) Block.Air.id))) := by
  have hdec := index_roundtrip_aux x y z (by omega) hx hy0 hy hz0 hz
  simp only [Chunk.has_left, hdec]
  rw [if_neg (by omega)]

/-- Helper: a face toward a solid neighbor is hidden. -/
theorem is_hidden_of_solid (b o : Block) (h : o.material = BlockMaterial.Solid) :
    Chunk.is_hidden b o = true := by
  simp [Chunk.is_hidden, h]

/-- C2: face culling — a face is hidden exactly when the neighbor is solid or
both voxels are water (the `is_hidden` characterization), the horizontal
visibility tests at interior coordinates are the negation of `is_hidden`
against the adjacent voxel (and a face is emitted by the mesh scan exactly
when its visibility test holds, `Chunk::generate_mesh` passing `faces` to
`build_faces`), so two adjacent solid voxels each hide the shared face, while
a solid voxel next to air has its face on the air side visible. -/
theorem face_culling_correct :
    ∀ (blocks left right : List Nat) (x y z : Int),
      0 ≤ x → x + 1 < 16 → 0 ≤ y → y < 256 → 0 ≤ z → z < 16 →
      ((∀ b o : Block, Chunk.is_hidden b o = true ↔
          (o.material = BlockMaterial.Solid ∨ (o.id = Block.Water.id ∧ b.id = Block.Water.id)))
        ∧ (Chunk.has_right blocks right (Chunk.xyz_to_index x y z) = true ↔
            ¬ Chunk.is_hidden
                (Block.block (blocks.getD (Chunk.xyz_to_index x y z) Block.Air.id))
                (Block.block (blocks.getD (Chunk.xyz_to_index (x + 1) y z) Block.Air.id)) = true)
        ∧ (Chunk.has_left blocks left (Chunk.xyz_to_index (x + 1) y z) = true ↔
            ¬ Chunk.is_hidden
                (Block.block (blocks.getD (Chunk.xyz_to_index (x + 1) y z) Block.Air.id))
                (Block.block (blocks.getD (Chunk.xyz_to_index x y z) Block.Air.id)) = true))
      ∧ (((Block.block (blocks.getD (Chunk.xyz_to_index x y z) Block.Air.id)).material
            = BlockMaterial.Solid →
          (Block.block (blocks.getD (Chunk.xyz_to_index (x + 1) y z) Block.Air.id)).material
            = BlockMaterial.Solid →
            Chunk.has_right blocks right (Chunk.xyz_to_index x y z) = false
            ∧ Chunk.has_left blocks left (Chunk.xyz_to_index (x + 1) y z) = false)
        ∧ ((Block.block (blocks.getD (Chunk.xyz_to_index x y z) Block.Air.id)).material
            = BlockMaterial.Solid →
            blocks.getD (Chunk.xyz_to_index (x + 1) y z) Block.Air.id = Block.Air.id →
            Chunk.has_right blocks right (Chunk.xyz_to_index x y z) = true)) := by
  intro blocks left right x y z hx0 hx hy0 hy hz0 hz
  have hr := has_right_interior blocks right x y z hx0 hx hy0 hy hz0 hz
  have hl := has_left_interior blocks left (x + 1) y z (by omega) (by omega) hy0 hy hz0 hz
  have hx1 : x + 1 - 1 = x := by omega
  rw [hx1] at hl
  refine ⟨⟨?_, ?_, ?_⟩, ?_, ?_⟩
  · intro b o
    simp only [Chunk.is_hidden]
    by_cases h1 : o.material = BlockMaterial.Solid
    · simp [h1]
    · by_cases h2 : o.id = Block.Water.id ∧ b.id = Block.Water.id
      · simp [h1, h2]
      · simp [h1, h2]
  · rw [hr]
    simp
  · rw [hl]
    simp
  · intro hs1 hs2
    constructor
    · rw [hr, is_hidden_of_solid _ _ hs2]
      rfl
    · rw [hl, is_hidden_of_solid _ _ hs1]
      rfl
  · intro hs1 hair
    rw [hr, hair, show Block.block Block.Air.id = Block.Air from rfl, is_hidden_air]
    rfl

/-- Witness for C2 on a concrete two-voxel configuration: grass at (0,0,0),
air at (1,0,0). -/
theorem face_culling_correct_witness :
    Chunk.has_right ((List.replicate 65536 0).set 0 1) [] (Chunk.xyz_to_index 0 0 0) = true :=
  (face_culling_correct ((List.replicate 65536 0).set 0 1) [] [] 0 0 0 (by decide) (by decide)
      (by decide) (by decide) (by decide) (by decide)).2.2
    (by rw [show Chunk.xyz_to_index 0 0 0 = 0 from rfl]
        rw [List.getD_eq_getElem?_getD, List.getElem?_set_self (by rw [List.length_replicate]; omega)]
        rfl)
    (by rw [show Chunk.xyz_to_index (0 + 1) 0 0 = 1 from rfl]
        rw [List.getD_eq_getElem?_getD, List.getElem?_set_ne (by omega),
          List.getElem?_replicate]
        norm_num [Block.Air])

/-- Helper: the float-to-int truncation cast agrees with the floor on
nonnegative rationals. -/
theorem f32_as_i32_eq_floor (q : ℚ) (h : 0 ≤ q) : f32_as_i32 q = ⌊q⌋ := by
  rw [f32_as_i32, Rat.floor_def]
  exact Int.tdiv_eq_ediv (Rat.num_nonneg.mpr h) (by positivity)

/-- Helper: dividing before or after taking the floor agrees for the
positive divisor 16. -/
theorem floor_div_sixteen (q : ℚ) : ⌊q / 16⌋ = ⌊q⌋ / 16 := by
  have h1 : (16 : Int) * (⌊q⌋ / 16) ≤ ⌊q⌋ := by omega
  have h2 : ⌊q⌋ + 1 ≤ 16 * (⌊q⌋ / 16) + 16 := by omega
  have hf1 : ((⌊q⌋ : ℚ)) ≤ q := Int.floor_le q
  have hf2 : q < (⌊q⌋ : ℚ) + 1 := Int.lt_floor_add_one q
  refine Int.floor_eq_iff.mpr ⟨?_, ?_⟩
  · rw [le_div_iff₀ (by norm_num : (0:ℚ) < 16)]
    have : ((16 * (⌊q⌋ / 16) : Int) : ℚ) ≤ (⌊q⌋ : ℚ) := by exact_mod_cast h1
    calc ((⌊q⌋ / 16 : Int) : ℚ) * 16 = ((16 * (⌊q⌋ / 16) : Int) : ℚ) := by push_cast; ring
      _ ≤ (⌊q⌋ : ℚ) := this
      _ ≤ q := hf1
  · rw [div_lt_iff₀ (by norm_num : (0:ℚ) < 16)]
    have : ((⌊q⌋ : ℚ)) + 1 ≤ ((16 * (⌊q⌋ / 16) + 16 : Int) : ℚ) := by exact_mod_cast h2
    calc q < (⌊q⌋ : ℚ) + 1 := hf2
      _ ≤ ((16 * (⌊q⌋ / 16) + 16 : Int) : ℚ) := this
      _ = (((⌊q⌋ / 16 : Int) : ℚ) + 1) * 16 := by push_cast; ring

/-- C7 counterexample: at the observer position (-1, -1) the source computes
chunk coordinate (0, 0) by truncation toward zero, while the floored quotient
is (-1, -1): the claim fails on negative coordinates. -/
theorem to_local_position_not_floor_at_neg_one :
    World.to_local_position ((-1 : ℚ), (-1 : ℚ)) ≠
      (⌊((-1 : ℚ)) / 16⌋, ⌊((-1 : ℚ)) / 16⌋) := by
  have h1 : World.to_local_position ((-1 : ℚ), (-1 : ℚ)) = (0, 0) := by decide
  have h2 : ⌊((-1 : ℚ)) / 16⌋ = -1 := by
    rw [Int.floor_eq_iff]
    norm_num
  rw [h1, h2]
  decide

/-- C7 amended: `World::to_local_position` computes the truncated quotient of
the truncated position, which coincides with the floored quotient
(floor(x/16), floor(z/16)) exactly on nonnegative coordinates — not on
negative ones. -/
theorem to_local_position_floors_nonneg :
    ∀ p : ℚ × ℚ, 0 ≤ p.1 → 0 ≤ p.2 →
      World.to_local_position p = (⌊p.1 / 16⌋, ⌊p.2 / 16⌋) := by
  intro p h1 h2
  simp only [World.to_local_position, Chunk.WIDTH, Chunk.DEPTH]
  rw [f32_as_i32_eq_floor _ h1, f32_as_i32_eq_floor _ h2,
    Int.tdiv_eq_ediv (Int.floor_nonneg.mpr h1) (by norm_num),
    Int.tdiv_eq_ediv (Int.floor_nonneg.mpr h2) (by norm_num),
    floor_div_sixteen, floor_div_sixteen]

/-- Witness for the amended C7 at the position (33, 47). -/
theorem to_local_position_floors_nonneg_witness :
    World.to_local_position ((33 : ℚ), (47 : ℚ)) = (⌊(33 : ℚ) / 16⌋, ⌊(47 : ℚ) / 16⌋) :=
  to_local_position_floors_nonneg ((33 : ℚ), (47 : ℚ)) (by norm_num) (by norm_num)

/-- Helper: when a tick does not submit, the in-flight flag is unchanged by
`Chunk::update` on an empty channel. -/
theorem update_none_gen (c : Chunk) (h : Chunk.submits c = false) :
    (Chunk.update none c).generating_mesh = c.generating_mesh := by
  simp only [Chunk.update, Chunk.generate_mesh, Chunk.submits] at *
  by_cases h1 : c.mesh_generated <;> by_cases h2 : c.generating_mesh <;>
    by_cases h3 : c.all_neighbors <;> simp_all

/-- Helper: the single-in-flight invariant of the build protocol — the
outstanding submission count is 1 when a build is flagged in flight and 0
otherwise, in every reachable state. -/
theorem build_inflight_invariant (hfn : Int → Int → Int) (lp : Int × Int) :
    ∀ s : Chunk × Nat, BuildReachable hfn lp s →
      s.2 = (if s.1.generating_mesh then 1 else 0) := by
  intro s h
  induction h with
  | init => simp [Chunk.new]
  | step hr hv ih =>
    rename_i s e
    cases e with
    | deliver m =>
      simp only [buildValid] at hv
      simp only [buildStep, Chunk.update]
      by_cases hg : s.1.generating_mesh <;> simp [hg] at ih ⊢ <;> omega
    | tick =>
      by_cases hsub : Chunk.submits s.1 = true
      · have h3 : s.1.mesh_generated = false ∧ s.1.generating_mesh = false
            ∧ s.1.all_neighbors = true := by
          simp only [Chunk.submits, Bool.and_eq_true, Bool.not_eq_true'] at hsub
          exact ⟨hsub.1.1, hsub.1.2, hsub.2⟩
        simp only [buildStep, hsub, Chunk.update, Chunk.generate_mesh, h3.1, h3.2.1, h3.2.2,
          if_true]
        simp [h3.2.1] at ih
        simp [ih]
      · have hsub' : Chunk.submits s.1 = false := by
          simpa using hsub
        simp only [buildStep, hsub', if_false, update_none_gen s.1 hsub', Bool.false_eq_true]
        exact ih
    | setLeft v => simpa [buildStep, Chunk.set_left] using ih
    | setRight v => simpa [buildStep, Chunk.set_right] using ih
    | setFront v => simpa [buildStep, Chunk.set_front] using ih
    | setBack v => simpa [buildStep, Chunk.set_back] using ih
    | clearLeft => simpa [buildStep, Chunk.clear_left] using ih
    | clearRight => simpa [buildStep, Chunk.clear_right] using ih
    | clearFront => simpa [buildStep, Chunk.clear_front] using ih
    | clearBack => simpa [buildStep, Chunk.clear_back] using ih
    | edit bid pos => simpa [buildStep, Chunk.place_block_at_world_position] using ih

/-- C4: in every reachable protocol state at most one mesh build is
outstanding; the count only grows on an empty-channel tick of an idle,
fully-snapshotted chunk (the only submission site); and a delivered result
unconditionally installs the mesh, clears the in-flight flag and consumes
the one outstanding submission. -/
theorem single_inflight_build :
    ∀ (hfn : Int → Int → Int) (lp : Int × Int) (s : Chunk × Nat),
      BuildReachable hfn lp s →
      (s.2 ≤ 1)
      ∧ (∀ e : BuildEvent, buildValid s e → s.2 < (buildStep s e).2 →
          (e = BuildEvent.tick ∧ s.1.mesh_generated = false ∧ s.1.generating_mesh = false
            ∧ s.1.all_neighbors = true))
      ∧ (∀ mesh : ChunkMesh,
          (buildStep s (BuildEvent.deliver mesh)).1.mesh = mesh
            ∧ (buildStep s (BuildEvent.deliver mesh)).1.generating_mesh = false
            ∧ (buildStep s (BuildEvent.deliver mesh)).1.mesh_generated = true
            ∧ (buildStep s (BuildEvent.deliver mesh)).2 = 0) := by
  intro hfn lp s h
  have hinv := build_inflight_invariant hfn lp s h
  refine ⟨?_, ?_, ?_⟩
  · by_cases hg : s.1.generating_mesh <;> simp [hg] at hinv <;> omega
  · intro e hv hlt
    cases e with
    | deliver m => simp only [buildStep] at hlt; omega
    | tick =>
      by_cases hsub : Chunk.submits s.1 = true
      · have h3 : s.1.mesh_generated = false ∧ s.1.generating_mesh = false
            ∧ s.1.all_neighbors = true := by
          simp only [Chunk.submits, Bool.and_eq_true, Bool.not_eq_true'] at hsub
          exact ⟨hsub.1.1, hsub.1.2, hsub.2⟩
        exact ⟨rfl, h3.1, h3.2.1, h3.2.2⟩
      · have hsub' : Chunk.submits s.1 = false := by simpa using hsub
        simp [buildStep, hsub'] at hlt
    | setLeft v => simp [buildStep] at hlt
    | setRight v => simp [buildStep] at hlt
    | setFront v => simp [buildStep] at hlt
    | setBack v => simp [buildStep] at hlt
    | clearLeft => simp [buildStep] at hlt
    | clearRight => simp [buildStep] at hlt
    | clearFront => simp [buildStep] at hlt
    | clearBack => simp [buildStep] at hlt
    | edit bid pos => simp [buildStep] at hlt
  · intro mesh
    refine ⟨rfl, rfl, rfl, ?_⟩
    simp only [buildStep]
    by_cases hg : s.1.generating_mesh <;> simp [hg] at hinv <;> omega

/-- Witness for C4 at the freshly constructed chunk at chunk coordinate
(0, 0) under the constant-height terrain. -/
theorem single_inflight_build_witness :
    ((Chunk.new (fun _ _ => 64) (0, 0), 0) : Chunk × Nat).2 ≤ 1 :=
  (single_inflight_build (fun _ _ => 64) (0, 0) (Chunk.new (fun _ _ => 64) (0, 0), 0)
    BuildReachable.init).1

/-- C10: `World::place_block` is a no-op on a `None` target; on a `Some`
target it panics (result `none`) exactly when the chunk containing the
face-adjacent derived cell is not resident, and succeeds whenever that chunk
is resident. -/
theorem place_block_requires_resident_chunk :
    ∀ (bid : Nat) (w : World),
      (World.place_block bid none w = some w)
      ∧ (∀ (t : Target) (s : Int × Int × Int),
          World.derived_spot t = some s →
          mlookup w.chunks (Int.fdiv s.1 Chunk.WIDTH, Int.fdiv s.2.2 Chunk.DEPTH) = none →
          World.place_block bid (some t) w = none)
      ∧ (∀ (t : Target) (s : Int × Int × Int),
          World.derived_spot t = some s →
          (mlookup w.chunks (Int.fdiv s.1 Chunk.WIDTH, Int.fdiv s.2.2 Chunk.DEPTH)).isSome →
          (World.place_block bid (some t) w).isSome) := by
  intro bid w
  refine ⟨rfl, ?_, ?_⟩
  · intro t s hs hnone
    simp only [World.place_block, hs, World.get_chunk, hnone]
  · intro t s hs hsome
    obtain ⟨c, hc⟩ := Option.isSome_iff_exists.mp hsome
    simp only [World.place_block, hs, World.get_chunk, hc]
    rfl

/-- Witness for C10 on the empty world: a `None` target edits nothing, and a
placement whose derived cell has no resident chunk panics. -/
theorem place_block_requires_resident_chunk_witness :
    (World.place_block 3 none (World.new 0) = some (World.new 0))
    ∧ World.place_block 3
        (some { position := (0, 0, 0), face := BlockFace.Top, name := "grass" })
        (World.new 0) = none :=
  ⟨(place_block_requires_resident_chunk 3 (World.new 0)).1,
    (place_block_requires_resident_chunk 3 (World.new 0)).2.1
      { position := (0, 0, 0), face := BlockFace.Top, name := "grass" } (0, 0 + 1, 0) rfl rfl⟩

/-- Helper: a fold of single-cell writes preserves the array length. -/
theorem foldl_set_length (L : List Nat) (f g : Nat → Nat) (b : List Nat) :
    (L.foldl (fun b i => b.set (f i) (g i)) b).length = b.length := by
  induction L generalizing b with
  | nil => rfl
  | cons a t ih => simp only [List.foldl_cons, ih, List.length_set]

/-- Helper: a single-cell write at a different index leaves a `getD` lookup
unchanged. -/
theorem getD_set_ne (b : List Nat) (i j v d : Nat) (h : i ≠ j) :
    (b.set i v).getD j d = b.getD j d := by
  rw [List.getD_eq_getElem?_getD, List.getElem?_set_ne h, ← List.getD_eq_getElem?_getD]

/-- Helper: a fold of single-cell writes away from `j` leaves the lookup at
`j` unchanged. -/
theorem foldl_set_getD_ne (L : List Nat) (f g : Nat → Nat) (b : List Nat) (j d : Nat)
    (h : ∀ i ∈ L, f i ≠ j) :
    (L.foldl (fun b i => b.set (f i) (g i)) b).getD j d = b.getD j d := by
  induction L generalizing b with
  | nil => rfl
  | cons a t ih =>
    simp only [List.foldl_cons]
    rw [ih _ (fun i hi => h i (List.mem_cons_of_mem a hi)),
      getD_set_ne _ _ _ _ _ (h a (List.mem_cons_self a t))]

/-- Helper: the flat indices of distinct in-range columns differ, whatever
the layer of the write. -/
theorem encode_ne_of_col_ne (x z x' y' z' : Int) (yi : Nat) (hx0 : 0 ≤ x) (hx : x < 16)
    (hz0 : 0 ≤ z) (hz : z < 16) (hx0' : 0 ≤ x') (hx' : x' < 16) (hy0' : 0 ≤ y')
    (hz0' : 0 ≤ z') (hz' : z' < 16) (hcol : ¬(x' = x ∧ z' = z)) :
    Chunk.xyz_to_index x (yi : Int) z ≠ Chunk.xyz_to_index x' y' z' := by
  simp only [Chunk.xyz_to_index, Chunk.WIDTH, Chunk.HEIGHT]
  omega

/-- Helper: `fill_column` leaves every other column untouched. -/
theorem fill_column_getD_other (n x z x' y' z' : Int) (b : List Nat) (d : Nat)
    (hx0 : 0 ≤ x) (hx : x < 16) (hz0 : 0 ≤ z) (hz : z < 16) (hx0' : 0 ≤ x') (hx' : x' < 16)
    (hy0' : 0 ≤ y') (hz0' : 0 ≤ z') (hz' : z' < 16) (hcol : ¬(x' = x ∧ z' = z)) :
    (Chunk.fill_column n x z b).getD (Chunk.xyz_to_index x' y' z') d =
      b.getD (Chunk.xyz_to_index x' y' z') d := by
  unfold Chunk.fill_column
  exact foldl_set_getD_ne _ (fun yi => Chunk.xyz_to_index x (yi : Int) z)
    (fun yi => if (yi : Int) > n then Block.Water.id else Block.Grass.id) b _ d
    (fun i _ => encode_ne_of_col_ne x z x' y' z' i hx0 hx hz0 hz hx0' hx' hy0' hz0' hz' hcol)

/-- Helper: `fill_column` preserves the array length. -/
theorem fill_column_length (n x z : Int) (b : List Nat) :
    (Chunk.fill_column n x z b).length = b.length := by
  unfold Chunk.fill_column
  exact foldl_set_length _ (fun yi => Chunk.xyz_to_index x (yi : Int) z)
    (fun yi => if (yi : Int) > n then Block.Water.id else Block.Grass.id) b

/-- Helper: writing a cell then reading it back yields the written value. -/
theorem getD_set_self (b : List Nat) (i v d : Nat) (h : i < b.length) :
    (b.set i v).getD i d = v := by
  rw [List.getD_eq_getElem?_getD, List.getElem?_set_self h]
  rfl

/-- Helper: effect of the first `m` layer writes of a column fill on any
in-range cell — written layers hold the water/grass rule value, everything
else is untouched. -/
theorem fill_range_getD (n x z : Int) (hx0 : 0 ≤ x) (hx : x < 16) (hz0 : 0 ≤ z)
    (hz : z < 16) :
    ∀ m : Nat, m ≤ 256 → ∀ b : List Nat, b.length = 65536 →
      ∀ x' y' z' : Int, 0 ≤ x' → x' < 16 → 0 ≤ y' → y' < 256 → 0 ≤ z' → z' < 16 →
      ((List.range m).foldl
          (fun b (yi : Nat) =>
            b.set (Chunk.xyz_to_index x (yi : Int) z)
              (if (yi : Int) > n then Block.Water.id else Block.Grass.id)) b).getD
        (Chunk.xyz_to_index x' y' z') Block.Air.id =
      if x' = x ∧ z' = z ∧ y' < (m : Int) then
        (if y' > n then Block.Water.id else Block.Grass.id)
      else b.getD (Chunk.xyz_to_index x' y' z') Block.Air.id := by
  intro m
  induction m with
  | zero =>
    intro _ b hb x' y' z' hx0' hx' hy0' hy' hz0' hz'
    rw [if_neg (by rintro ⟨_, _, h⟩; omega)]
    rfl
  | succ k ih =>
    intro hm b hb x' y' z' hx0' hx' hy0' hy' hz0' hz'
    rw [List.range_succ, List.foldl_append]
    simp only [List.foldl_cons, List.foldl_nil]
    by_cases hc : x' = x ∧ z' = z ∧ y' = (k : Int)
    · obtain ⟨h1, h2, h3⟩ := hc
      have hlen : ((List.range k).foldl
          (fun b (yi : Nat) =>
            b.set (Chunk.xyz_to_index x (yi : Int) z)
              (if (yi : Int) > n then Block.Water.id else Block.Grass.id)) b).length = 65536 := by
        rw [foldl_set_length (List.range k) (fun yi => Chunk.xyz_to_index x (yi : Int) z)
          (fun yi => if (yi : Int) > n then Block.Water.id else Block.Grass.id) b, hb]
      have hidx_eq : Chunk.xyz_to_index x (k : Int) z = Chunk.xyz_to_index x' y' z' := by
        rw [h1, h2, h3]
      have hlt : Chunk.xyz_to_index x (k : Int) z < ((List.range k).foldl
          (fun b (yi : Nat) =>
            b.set (Chunk.xyz_to_index x (yi : Int) z)
              (if (yi : Int) > n then Block.Water.id else Block.Grass.id)) b).length := by
        rw [hlen]
        exact encode_lt_size x (k : Int) z hx0 hx (by omega) (by omega) hz0 hz
      rw [← hidx_eq, getD_set_self _ _ _ _ hlt]
      have hcond : x' = x ∧ z' = z ∧ y' < ((k + 1 : Nat) : Int) := ⟨h1, h2, by omega⟩
      rw [if_pos hcond, h3]
    · have hne : Chunk.xyz_to_index x (k : Int) z ≠ Chunk.xyz_to_index x' y' z' := by
        simp only [Chunk.xyz_to_index, Chunk.WIDTH, Chunk.HEIGHT]
        omega
      rw [getD_set_ne _ _ _ _ _ hne, ih (by omega) b hb x' y' z' hx0' hx' hy0' hy' hz0' hz']
      by_cases h2 : x' = x ∧ z' = z ∧ y' < (k : Int)
      · have hcond : x' = x ∧ z' = z ∧ y' < ((k + 1 : Nat) : Int) := ⟨h2.1, h2.2.1, by
          have := h2.2.2
          omega⟩
        rw [if_pos h2, if_pos hcond]
      · have h3 : ¬(x' = x ∧ z' = z ∧ y' < ((k + 1 : Nat) : Int)) := by
          rintro ⟨ha, hbz, hy⟩
          have h4 : ¬ y' < (k : Int) := fun hlt => h2 ⟨ha, hbz, hlt⟩
          exact hc ⟨ha, hbz, by omega⟩
        rw [if_neg h2, if_neg h3]

/-- Helper: full effect of one column fill on its own column — layers up to
`max n 60` get the water/grass rule, layers above are untouched. -/
theorem fill_column_getD_same (n x z y' : Int) (b : List Nat) (hb : b.length = 65536)
    (hx0 : 0 ≤ x) (hx : x < 16) (hz0 : 0 ≤ z) (hz : z < 16) (hy0' : 0 ≤ y') (hy' : y' < 256)
    (hn : n ≤ 255) :
    (Chunk.fill_column n x z b).getD (Chunk.xyz_to_index x y' z) Block.Air.id =
      if y' ≤ max n 60 then (if y' > n then Block.Water.id else Block.Grass.id)
      else b.getD (Chunk.xyz_to_index x y' z) Block.Air.id := by
  unfold Chunk.fill_column
  rw [fill_range_getD n x z hx0 hx hz0 hz (max n 60 + 1).toNat (by omega) b hb x y' z hx0 hx
    hy0' hy' hz0 hz]
  by_cases h : y' ≤ max n 60
  · rw [if_pos ⟨rfl, rfl, by omega⟩, if_pos h]
  · rw [if_neg (by rintro ⟨_, _, hy⟩; omega), if_neg h]

/-- Helper: a fold of column fills preserves the array length. -/
theorem inner_fold_length (hfn : Int → Int → Int) (wp : Int × Int) (xi : Nat) :
    ∀ (L : List Nat) (b : List Nat),
      (L.foldl (fun b (zi : Nat) =>
          Chunk.fill_column (hfn ((xi : Int) + wp.1) ((zi : Int) + wp.2)) (xi : Int) (zi : Int) b)
        b).length = b.length := by
  intro L
  induction L with
  | nil => intro b; rfl
  | cons zi t ih =>
    intro b
    simp only [List.foldl_cons]
    rw [ih, fill_column_length]

/-- Helper: effect of the z-loop of `generate_blocks` for one x-slice on any
in-range cell. -/
theorem inner_cols_getD (hfn : Int → Int → Int) (wp : Int × Int) (xi : Nat) (hxi : xi < 16)
    (hbound : ∀ zi : Nat, zi < 16 → hfn ((xi : Int) + wp.1) ((zi : Int) + wp.2) ≤ 255) :
    ∀ L : List Nat, (∀ zi ∈ L, zi < 16) →
      ∀ b : List Nat, b.length = 65536 →
      ∀ x' y' z' : Int, 0 ≤ x' → x' < 16 → 0 ≤ y' → y' < 256 → 0 ≤ z' → z' < 16 →
      (L.foldl (fun b (zi : Nat) =>
          Chunk.fill_column (hfn ((xi : Int) + wp.1) ((zi : Int) + wp.2)) (xi : Int) (zi : Int) b)
        b).getD (Chunk.xyz_to_index x' y' z') Block.Air.id =
      if (xi : Int) = x' ∧ z'.toNat ∈ L ∧ y' ≤ max (hfn ((xi : Int) + wp.1) (z' + wp.2)) 60 then
        (if y' > hfn ((xi : Int) + wp.1) (z' + wp.2) then Block.Water.id else Block.Grass.id)
      else b.getD (Chunk.xyz_to_index x' y' z') Block.Air.id := by
  intro L
  induction L with
  | nil =>
    intro _ b hb x' y' z' hx0' hx' hy0' hy' hz0' hz'
    rw [if_neg (by rintro ⟨_, hm, _⟩; exact absurd hm (List.not_mem_nil _))]
    rfl
  | cons zi t ih =>
    intro hmem b hb x' y' z' hx0' hx' hy0' hy' hz0' hz'
    have hzi : zi < 16 := hmem zi (List.mem_cons_self zi t)
    simp only [List.foldl_cons]
    rw [ih (fun z hz => hmem z (List.mem_cons_of_mem zi hz))
      (Chunk.fill_column (hfn ((xi : Int) + wp.1) ((zi : Int) + wp.2)) (xi : Int) (zi : Int) b)
      (by rw [fill_column_length]; exact hb) x' y' z' hx0' hx' hy0' hy' hz0' hz']
    by_cases hCt : (xi : Int) = x' ∧ z'.toNat ∈ t
        ∧ y' ≤ max (hfn ((xi : Int) + wp.1) (z' + wp.2)) 60
    · have hccons : (xi : Int) = x' ∧ z'.toNat ∈ zi :: t
          ∧ y' ≤ max (hfn ((xi : Int) + wp.1) (z' + wp.2)) 60 :=
        ⟨hCt.1, List.mem_cons_of_mem zi hCt.2.1, hCt.2.2⟩
      rw [if_pos hCt, if_pos hccons]
    · rw [if_neg hCt]
      by_cases hcol : x' = (xi : Int) ∧ z' = (zi : Int)
      · obtain ⟨hcx, hcz⟩ := hcol
        subst hcx
        subst hcz
        rw [fill_column_getD_same (hfn ((xi : Int) + wp.1) ((zi : Int) + wp.2)) (xi : Int)
          (zi : Int) y' b hb (by omega) (by omega) (by omega) (by omega) hy0' hy'
          (hbound zi hzi)]
        by_cases hB : y' ≤ max (hfn ((xi : Int) + wp.1) ((zi : Int) + wp.2)) 60
        · have hccons : (xi : Int) = (xi : Int) ∧ ((zi : Int)).toNat ∈ zi :: t
              ∧ y' ≤ max (hfn ((xi : Int) + wp.1) ((zi : Int) + wp.2)) 60 :=
            ⟨rfl, by simp, hB⟩
          rw [if_pos hB, if_pos hccons]
        · have hccons : ¬((xi : Int) = (xi : Int) ∧ ((zi : Int)).toNat ∈ zi :: t
              ∧ y' ≤ max (hfn ((xi : Int) + wp.1) ((zi : Int) + wp.2)) 60) := by
            rintro ⟨_, _, h⟩
            exact hB h
          rw [if_neg hB, if_neg hccons]
      · rw [fill_column_getD_other (hfn ((xi : Int) + wp.1) ((zi : Int) + wp.2)) (xi : Int)
          (zi : Int) x' y' z' b Block.Air.id (by omega) (by omega) (by omega) (by omega)
          hx0' hx' hy0' hz0' hz' hcol]
        have hccons : ¬((xi : Int) = x' ∧ z'.toNat ∈ zi :: t
            ∧ y' ≤ max (hfn ((xi : Int) + wp.1) (z' + wp.2)) 60) := by
          rintro ⟨hA, hmem2, hB⟩
          rcases List.mem_cons.mp hmem2 with hhead | htail
          · exact hcol ⟨hA.symm, by omega⟩
          · exact hCt ⟨hA, htail, hB⟩
        rw [if_neg hccons]

/-- Helper: effect of the full x/z double loop of `generate_blocks` on any
in-range cell. -/
theorem outer_cols_getD (hfn : Int → Int → Int) (wp : Int × Int)
    (hbound : ∀ xi zi : Nat, xi < 16 → zi < 16 →
      hfn ((xi : Int) + wp.1) ((zi : Int) + wp.2) ≤ 255) :
    ∀ XL : List Nat, (∀ xi ∈ XL, xi < 16) →
      ∀ b : List Nat, b.length = 65536 →
      ∀ x' y' z' : Int, 0 ≤ x' → x' < 16 → 0 ≤ y' → y' < 256 → 0 ≤ z' → z' < 16 →
      (XL.foldl (fun b (xi : Nat) =>
          (List.range 16).foldl (fun b (zi : Nat) =>
            Chunk.fill_column (hfn ((xi : Int) + wp.1) ((zi : Int) + wp.2)) (xi : Int) (zi : Int)
              b) b)
        b).getD (Chunk.xyz_to_index x' y' z') Block.Air.id =
      if x'.toNat ∈ XL ∧ y' ≤ max (hfn (x' + wp.1) (z' + wp.2)) 60 then
        (if y' > hfn (x' + wp.1) (z' + wp.2) then Block.Water.id else Block.Grass.id)
      else b.getD (Chunk.xyz_to_index x' y' z') Block.Air.id := by
  intro XL
  induction XL with
  | nil =>
    intro _ b hb x' y' z' hx0' hx' hy0' hy' hz0' hz'
    rw [if_neg (by rintro ⟨hm, _⟩; exact absurd hm (List.not_mem_nil _))]
    rfl
  | cons xi xt ih =>
    intro hmem b hb x' y' z' hx0' hx' hy0' hy' hz0' hz'
    have hxi : xi < 16 := hmem xi (List.mem_cons_self xi xt)
    simp only [List.foldl_cons]
    rw [ih (fun xj hxj => hmem xj (List.mem_cons_of_mem xi hxj))
      ((List.range 16).foldl (fun b (zi : Nat) =>
        Chunk.fill_column (hfn ((xi : Int) + wp.1) ((zi : Int) + wp.2)) (xi : Int) (zi : Int) b)
        b)
      (by rw [inner_fold_length]; exact hb) x' y' z' hx0' hx' hy0' hy' hz0' hz']
    by_cases hCt : x'.toNat ∈ xt ∧ y' ≤ max (hfn (x' + wp.1) (z' + wp.2)) 60
    · have hccons : x'.toNat ∈ xi :: xt ∧ y' ≤ max (hfn (x' + wp.1) (z' + wp.2)) 60 :=
        ⟨List.mem_cons_of_mem xi hCt.1, hCt.2⟩
      rw [if_pos hCt, if_pos hccons]
    · rw [if_neg hCt]
      rw [inner_cols_getD hfn wp xi hxi (fun zj hzj => hbound xi zj hxi hzj) (List.range 16)
        (fun zj hzj => List.mem_range.mp hzj) b hb x' y' z' hx0' hx' hy0' hy' hz0' hz']
      by_cases hA : (xi : Int) = x'
      · by_cases hB : y' ≤ max (hfn (x' + wp.1) (z' + wp.2)) 60
        · have hc1 : (xi : Int) = x' ∧ z'.toNat ∈ List.range 16
              ∧ y' ≤ max (hfn ((xi : Int) + wp.1) (z' + wp.2)) 60 :=
            ⟨hA, List.mem_range.mpr (by omega), by rw [hA]; exact hB⟩
          have hc2 : x'.toNat ∈ xi :: xt ∧ y' ≤ max (hfn (x' + wp.1) (z' + wp.2)) 60 :=
            ⟨by rw [← hA]; simp, hB⟩
          rw [if_pos hc1, if_pos hc2, hA]
        · have hc1 : ¬((xi : Int) = x' ∧ z'.toNat ∈ List.range 16
              ∧ y' ≤ max (hfn ((xi : Int) + wp.1) (z' + wp.2)) 60) := by
            rintro ⟨_, _, h⟩
            rw [hA] at h
            exact hB h
          have hc2 : ¬(x'.toNat ∈ xi :: xt ∧ y' ≤ max (hfn (x' + wp.1) (z' + wp.2)) 60) := by
            rintro ⟨_, h⟩
            exact hB h
          rw [if_neg hc1, if_neg hc2]
      · have hc1 : ¬((xi : Int) = x' ∧ z'.toNat ∈ List.range 16
            ∧ y' ≤ max (hfn ((xi : Int) + wp.1) (z' + wp.2)) 60) := by
          rintro ⟨h, _, _⟩
          exact hA h
        have hc2 : ¬(x'.toNat ∈ xi :: xt ∧ y' ≤ max (hfn (x' + wp.1) (z' + wp.2)) 60) := by
          rintro ⟨hmem2, hB⟩
          rcases List.mem_cons.mp hmem2 with hhead | htail
          · exact hA (by omega)
          · exact hCt ⟨htail, hB⟩
        rw [if_neg hc1, if_neg hc2]

/-- Helper: the all-air initial array reads air everywhere. -/
theorem replicate_air_getD (j : Nat) :
    (List.replicate Chunk.SIZE.toNat Block.Air.id).getD j Block.Air.id = Block.Air.id := by
  rw [List.getD_eq_getElem?_getD, List.getElem?_replicate]
  split <;> rfl

/-- Helper: full column characterization of `Chunk::generate_blocks` — at or
below the height the solid ground block, between the height and sea level 60
the water block, above both air. -/
theorem generate_blocks_getD (hfn : Int → Int → Int) (wp : Int × Int)
    (hbound : ∀ xi zi : Nat, xi < 16 → zi < 16 →
      hfn ((xi : Int) + wp.1) ((zi : Int) + wp.2) ≤ 255)
    (x y z : Int) (hx0 : 0 ≤ x) (hx : x < 16) (hy0 : 0 ≤ y) (hy : y < 256) (hz0 : 0 ≤ z)
    (hz : z < 16) :
    (Chunk.generate_blocks hfn wp).getD (Chunk.xyz_to_index x y z) Block.Air.id =
      if y ≤ hfn (x + wp.1) (z + wp.2) then Block.Grass.id
      else if y ≤ max (hfn (x + wp.1) (z + wp.2)) 60 then Block.Water.id
      else Block.Air.id := by
  unfold Chunk.generate_blocks
  rw [outer_cols_getD hfn wp hbound (List.range 16) (fun xj hxj => List.mem_range.mp hxj)
    (List.replicate Chunk.SIZE.toNat Block.Air.id) (by rw [List.length_replicate]; rfl)
    x y z hx0 hx hy0 hy hz0 hz]
  have hmem : x.toNat ∈ List.range 16 := List.mem_range.mpr (by omega)
  by_cases h1 : y ≤ hfn (x + wp.1) (z + wp.2)
  · have hcond : x.toNat ∈ List.range 16 ∧ y ≤ max (hfn (x + wp.1) (z + wp.2)) 60 :=
      ⟨hmem, by omega⟩
    rw [if_pos hcond, if_neg (by omega : ¬ y > hfn (x + wp.1) (z + wp.2)), if_pos h1]
  · by_cases h2 : y ≤ max (hfn (x + wp.1) (z + wp.2)) 60
    · have hcond : x.toNat ∈ List.range 16 ∧ y ≤ max (hfn (x + wp.1) (z + wp.2)) 60 :=
        ⟨hmem, h2⟩
      rw [if_pos hcond, if_pos (by omega : y > hfn (x + wp.1) (z + wp.2)), if_neg h1,
        if_pos h2]
    · have hcond : ¬(x.toNat ∈ List.range 16 ∧ y ≤ max (hfn (x + wp.1) (z + wp.2)) 60) := by
        rintro ⟨_, h⟩
        exact h2 h
      rw [if_neg hcond, replicate_air_getD, if_neg h1, if_neg h2]

/-- C5: in every freshly generated column, voxels at or below the generated
height hold the solid ground block (grass), voxels between the height and sea
level 60 hold the transparent water block, and voxels above `max(height, 60)`
stay air; the chunk's voxel array is exactly the pure function
`generate_blocks` of the height function and chunk coordinate — so identical
noise configuration and coordinate give the identical array — and
construction touches no other chunk state (no snapshots, empty mesh, clear
flags).  The bound `≤ 255` keeps every written layer inside the build volume
(the source would panic past it). -/
theorem generate_blocks_column_rule :
    ∀ (hfn : Int → Int → Int) (lp : Int × Int) (x y z : Int),
      0 ≤ x → x < 16 → 0 ≤ y → y < 256 → 0 ≤ z → z < 16 →
      (∀ xi zi : Nat, xi < 16 → zi < 16 →
        hfn ((xi : Int) + (Chunk.local_to_world_position lp).1)
          ((zi : Int) + (Chunk.local_to_world_position lp).2) ≤ 255) →
      ((Chunk.new hfn lp).blocks.getD (Chunk.xyz_to_index x y z) Block.Air.id =
          (if y ≤ hfn (x + (Chunk.local_to_world_position lp).1)
                    (z + (Chunk.local_to_world_position lp).2) then Block.Grass.id
           else if y ≤ max (hfn (x + (Chunk.local_to_world_position lp).1)
                    (z + (Chunk.local_to_world_position lp).2)) 60 then Block.Water.id
           else Block.Air.id))
      ∧ (Chunk.new hfn lp).blocks = Chunk.generate_blocks hfn (Chunk.local_to_world_position lp)
      ∧ (Chunk.new hfn lp).left = none ∧ (Chunk.new hfn lp).right = none
      ∧ (Chunk.new hfn lp).front = none ∧ (Chunk.new hfn lp).back = none
      ∧ (Chunk.new hfn lp).mesh = ChunkMesh.empty
      ∧ (Chunk.new hfn lp).mesh_generated = false
      ∧ (Chunk.new hfn lp).generating_mesh = false := by
  intro hfn lp x y z hx0 hx hy0 hy hz0 hz hbound
  refine ⟨?_, rfl, rfl, rfl, rfl, rfl, rfl, rfl, rfl⟩
  exact generate_blocks_getD hfn (Chunk.local_to_world_position lp) hbound x y z hx0 hx hy0 hy
    hz0 hz

/-- Witness for C5 with the constant height function 64 at chunk (0, 0):
layer 64 of column (0, 0) is grass. -/
theorem generate_blocks_column_rule_witness :
    (Chunk.new (fun _ _ => 64) (0, 0)).blocks.getD (Chunk.xyz_to_index 0 64 0) Block.Air.id
      = Block.Grass.id := by
  have h := (generate_blocks_column_rule (fun _ _ => 64) (0, 0) 0 64 0 (by decide) (by decide)
    (by decide) (by decide) (by decide) (by decide) (fun _ _ _ _ => by norm_num)).1
  have hc : (64 : Int) ≤ (fun _ _ => (64 : Int))
      (0 + (Chunk.local_to_world_position (0, 0)).1)
      (0 + (Chunk.local_to_world_position (0, 0)).2) := by norm_num
  rw [if_pos hc] at h
  exact h

/-- Helper: lookup after insert — the inserted key reads the new value,
other keys are unaffected. -/
theorem mlookup_minsert {α : Type} (m : List ((Int × Int) × α)) (k k' : Int × Int) (v : α) :
    mlookup (minsert m k v) k' = if k = k' then some v else mlookup m k' := by
  induction m with
  | nil =>
    by_cases h : k = k'
    · simp [minsert, mlookup, h]
    · simp [minsert, mlookup, h]
  | cons e t ih =>
    by_cases he : e.1 = k
    · by_cases h : k = k'
      · simp [minsert, mlookup, he, h]
      · simp only [minsert, mlookup]
        rw [if_pos he]
        simp only [mlookup, if_neg h]
        rw [← he] at h
        simp [mlookup, if_neg h]
    · simp only [minsert, mlookup, if_neg he]
      by_cases he' : e.1 = k'
      · by_cases h : k = k'
        · rw [← h] at he'
          exact absurd he' he
        · simp [mlookup, he', h]
      · simp only [mlookup, if_neg he']
        exact ih

/-- Helper: a general fold invariant. -/
theorem foldl_inv {α β : Type} (P : α → Prop) (f : α → β → α) :
    ∀ (L : List β) (a : α), P a → (∀ a b, P a → P (f a b)) → P (L.foldl f a) := by
  intro L
  induction L with
  | nil => intro a ha _; exact ha
  | cons x t ih =>
    intro a ha hstep
    exact ih (f a x) (hstep a x ha) hstep

/-- Helper: membership in the half-open integer range. -/
theorem mem_intRange (a b x : Int) : x ∈ intRange a b ↔ a ≤ x ∧ x < b := by
  unfold intRange
  simp only [List.mem_map, List.mem_range]
  constructor
  · rintro ⟨i, hi, rfl⟩
    omega
  · intro h
    exact ⟨(x - a).toNat, by omega, by omega⟩

/-- Helper: membership in the streaming window coordinate list. -/
theorem mem_window (a b a2 b2 : Int) (k : Int × Int) :
    k ∈ (intRange a b).flatMap (fun x => (intRange a2 b2).map (fun z => (x, z))) ↔
      (a ≤ k.1 ∧ k.1 < b ∧ a2 ≤ k.2 ∧ k.2 < b2) := by
  simp only [List.mem_flatMap, List.mem_map]
  constructor
  · rintro ⟨x, hx, z, hz, rfl⟩
    rw [mem_intRange] at hx
    rw [mem_intRange] at hz
    exact ⟨hx.1, hx.2, hz.1, hz.2⟩
  · rintro ⟨h1, h2, h3, h4⟩
    exact ⟨k.1, (mem_intRange _ _ _).mpr ⟨h1, h2⟩,
      k.2, (mem_intRange _ _ _).mpr ⟨h3, h4⟩, rfl⟩

/-- Helper: after `World.update_cell` at `k`, the chunk at `k` is resident. -/
theorem update_cell_present (hfn : Int → Int → Int) (recv : Int × Int → Option ChunkMesh)
    (acc : UpdateAcc) (k : Int × Int) :
    (mlookup (World.update_cell hfn recv acc k).chunks k).isSome = true := by
  simp only [World.update_cell]
  rw [mlookup_minsert, if_pos rfl]
  rfl

/-- Helper: `World.update_cell` at `k` does not change residency at other
keys. -/
theorem update_cell_other (hfn : Int → Int → Int) (recv : Int × Int → Option ChunkMesh)
    (acc : UpdateAcc) (k j : Int × Int) (hkj : k ≠ j) :
    mlookup (World.update_cell hfn recv acc k).chunks j = mlookup acc.chunks j := by
  simp only [World.update_cell]
  rw [mlookup_minsert, if_neg hkj]
  rcases hmk : mlookup acc.chunks k with _ | ch
  · simp only [hmk]
    rw [mlookup_minsert, if_neg hkj]
  · simp only [hmk]

/-- Helper: `World.update_cell` never drops a resident chunk. -/
theorem update_cell_mono (hfn : Int → Int → Int) (recv : Int × Int → Option ChunkMesh)
    (acc : UpdateAcc) (k j : Int × Int)
    (h : (mlookup acc.chunks j).isSome = true) :
    (mlookup (World.update_cell hfn recv acc k).chunks j).isSome = true := by
  by_cases hkj : k = j
  · rw [← hkj] at h ⊢
    exact update_cell_present hfn recv acc k
  · rw [update_cell_other hfn recv acc k j hkj]
    exact h

/-- Helper: residency is preserved across the whole window fold. -/
theorem update_fold_mono (hfn : Int → Int → Int) (recv : Int × Int → Option ChunkMesh) :
    ∀ (W : List (Int × Int)) (acc : UpdateAcc) (j : Int × Int),
      (mlookup acc.chunks j).isSome = true →
      (mlookup (W.foldl (World.update_cell hfn recv) acc).chunks j).isSome = true := by
  intro W
  induction W with
  | nil => intro acc j h; exact h
  | cons k t ih =>
    intro acc j h
    exact ih (World.update_cell hfn recv acc k) j (update_cell_mono hfn recv acc k j h)

/-- Helper: every coordinate iterated over by the window fold is resident
afterwards. -/
theorem update_fold_present (hfn : Int → Int → Int) (recv : Int × Int → Option ChunkMesh) :
    ∀ (W : List (Int × Int)) (acc : UpdateAcc) (j : Int × Int), j ∈ W →
      (mlookup (W.foldl (World.update_cell hfn recv) acc).chunks j).isSome = true := by
  intro W
  induction W with
  | nil => intro acc j h; exact absurd h (List.not_mem_nil j)
  | cons k t ih =>
    intro acc j h
    rcases List.mem_cons.mp h with rfl | ht
    · exact update_fold_mono hfn recv t (World.update_cell hfn recv acc j) j
        (update_cell_present hfn recv acc j)
    · exact ih (World.update_cell hfn recv acc k) j ht

/-- Helper: the reconciliation step either writes a buffer at the processed
key or leaves the next-buffer registry unchanged. -/
theorem reconcile_buffer_next_shape (bufs next : List ((Int × Int) × ChunkBuffer))
    (vc : Nat) (k : Int × Int) (ch : Chunk) :
    (∃ v, (World.reconcile_buffer bufs next vc k ch).1 = minsert next k v)
    ∨ (World.reconcile_buffer bufs next vc k ch).1 = next := by
  unfold World.reconcile_buffer
  rcases mlookup bufs k with _ | b
  · dsimp only
    split
    · exact Or.inl ⟨_, rfl⟩
    · exact Or.inr rfl
  · dsimp only
    split
    · exact Or.inl ⟨_, rfl⟩
    · exact Or.inl ⟨_, rfl⟩

/-- Helper: a buffer key present in the next-buffer registry after one cell
update was either just written at `k` or was already present. -/
theorem update_cell_next_buffers (hfn : Int → Int → Int) (recv : Int × Int → Option ChunkMesh)
    (acc : UpdateAcc) (k j : Int × Int)
    (h : (mlookup (World.update_cell hfn recv acc k).next_buffers j).isSome = true) :
    j = k ∨ (mlookup acc.next_buffers j).isSome = true := by
  by_cases hkj : j = k
  · exact Or.inl hkj
  · right
    simp only [World.update_cell] at h
    rcases reconcile_buffer_next_shape acc.buffers acc.next_buffers acc.vertex_count k
        (Chunk.update (recv k) (World.resolve_snapshot (match mlookup acc.chunks k with
          | some ch => (acc.chunks, ch)
          | none => (minsert acc.chunks k (Chunk.new hfn k), Chunk.new hfn k)).1 k
          (match mlookup acc.chunks k with
          | some ch => (acc.chunks, ch)
          | none => (minsert acc.chunks k (Chunk.new hfn k), Chunk.new hfn k)).2))
      with ⟨v, hv⟩ | hv
    · rw [hv, mlookup_minsert, if_neg (fun hh => hkj hh.symm)] at h
      exact h
    · rw [hv] at h
      exact h

/-- Helper: every buffer key after the window fold was iterated over or was
present before. -/
theorem update_fold_next_buffers (hfn : Int → Int → Int)
    (recv : Int × Int → Option ChunkMesh) :
    ∀ (W : List (Int × Int)) (acc : UpdateAcc) (j : Int × Int),
      (mlookup (W.foldl (World.update_cell hfn recv) acc).next_buffers j).isSome = true →
      j ∈ W ∨ (mlookup acc.next_buffers j).isSome = true := by
  intro W
  induction W with
  | nil => intro acc j h; exact Or.inr h
  | cons k t ih =>
    intro acc j h
    rcases ih (World.update_cell hfn recv acc k) j h with ht | hacc
    · exact Or.inl (List.mem_cons_of_mem k ht)
    · rcases update_cell_next_buffers hfn recv acc k j hacc with rfl | hb
      · exact Or.inl (List.mem_cons_self j t)
      · exact Or.inr hb

/-- C1 amended: after an update tick every coordinate of the
`(2R+2) x (2R+2)` window is resident in the chunk registry, the buffer
registry holds only window coordinates (stale buffers are dropped by the
`next_buffers` swap), but the chunk registry is never pruned: every chunk
resident before the tick — in or out of the window — is still resident
after it. -/
theorem update_window_registry :
    ∀ (hfn : Int → Int → Int) (recv : Int × Int → Option ChunkMesh) (p : ℚ × ℚ) (w : World),
      (∀ k : Int × Int,
        (World.to_local_position p).1 - (w.render_distance + 1) ≤ k.1 →
        k.1 < (World.to_local_position p).1 + (w.render_distance + 1) →
        (World.to_local_position p).2 - (w.render_distance + 1) ≤ k.2 →
        k.2 < (World.to_local_position p).2 + (w.render_distance + 1) →
        (mlookup (World.update hfn recv p w).chunks k).isSome = true)
      ∧ (∀ k : Int × Int, (mlookup (World.update hfn recv p w).buffers k).isSome = true →
          ((World.to_local_position p).1 - (w.render_distance + 1) ≤ k.1
            ∧ k.1 < (World.to_local_position p).1 + (w.render_distance + 1)
            ∧ (World.to_local_position p).2 - (w.render_distance + 1) ≤ k.2
            ∧ k.2 < (World.to_local_position p).2 + (w.render_distance + 1)))
      ∧ (∀ k : Int × Int, (mlookup w.chunks k).isSome = true →
          (mlookup (World.update hfn recv p w).chunks k).isSome = true) := by
  intro hfn recv p w
  refine ⟨?_, ?_, ?_⟩
  · intro k h1 h2 h3 h4
    simp only [World.update]
    exact update_fold_present hfn recv _ _ k
      ((mem_window _ _ _ _ k).mpr ⟨h1, h2, h3, h4⟩)
  · intro k h
    simp only [World.update] at h
    rcases update_fold_next_buffers hfn recv _ _ k h with hm | habs
    · exact (mem_window _ _ _ _ k).mp hm
    · simp [mlookup] at habs
  · intro k h
    simp only [World.update]
    exact update_fold_mono hfn recv _ _ k h

/-- Witness for the amended C1 on the empty world of render distance 0 at the
origin: the window coordinate (0, 0) is resident after the tick. -/
theorem update_window_registry_witness :
    (mlookup (World.update (fun _ _ => 64) (fun _ => none) ((0 : ℚ), (0 : ℚ))
        (World.new 0)).chunks (0, 0)).isSome = true :=
  (update_window_registry (fun _ _ => 64) (fun _ => none) ((0 : ℚ), (0 : ℚ))
      (World.new 0)).1 (0, 0) (by decide) (by decide) (by decide) (by decide)

/-- C1 counterexample: starting from the empty world with render distance 0,
one tick at the origin makes chunk (0, 0) resident; a second tick at world
position (32, 32) — observer chunk (2, 2), window [1, 3) x [1, 3), which
excludes (0, 0) — leaves the stale chunk (0, 0) resident in the chunk
registry, so out-of-window chunks are not removed from it. -/
theorem stale_chunk_survives_update :
    (mlookup (World.update (fun _ _ => 64) (fun _ => none) ((32 : ℚ), (32 : ℚ))
        (World.update (fun _ _ => 64) (fun _ => none) ((0 : ℚ), (0 : ℚ))
          (World.new 0))).chunks (0, 0)).isSome = true
    ∧ World.to_local_position ((32 : ℚ), (32 : ℚ)) = (2, 2)
    ∧ ¬((2 : Int) - (0 + 1) ≤ 0) := by
  refine ⟨?_, by decide, by decide⟩
  have h1 : (mlookup (World.update (fun _ _ => 64) (fun _ => none) ((0 : ℚ), (0 : ℚ))
      (World.new 0)).chunks (0, 0)).isSome = true := by
    simp only [World.update]
    exact update_fold_present _ _ _ _ (0, 0) ((mem_window _ _ _ _ (0, 0)).mpr (by decide))
  simp only [World.update]
  exact update_fold_mono _ _ _ _ (0, 0) h1

/-- C8 counterexample: after initial generation of the 2x2 window around the
origin (render distance 0), the border chunk (-1, -1) has no resident left
neighbor (-2, -1), and `World::generate` installs the empty vector — not an
absent snapshot and not a full 65536-element copy — as its left snapshot. -/
theorem generate_installs_empty_snapshot :
    ((mlookup (World.generate (fun _ _ => 64) ((0 : ℚ), (0 : ℚ)) (World.new 0)).chunks
        (-1, -1)).map (fun c => c.left)) = some (some ([] : List Nat))
    ∧ ([] : List Nat).length ≠ 65536 :=
  ⟨rfl, by decide⟩

/-- Snapshot well-formedness: a neighbor-edge snapshot is absent, a full
65536-element copy, or the empty array installed for a missing neighbor. -/
def SnapOK (s : Option (List Nat)) : Prop :=
  ∀ v, s = some v → v.length = 65536 ∨ v = []

/-- Chunk well-formedness: full-size voxel array and well-formed snapshots. -/
def ChunkWF (c : Chunk) : Prop :=
  c.blocks.length = 65536 ∧ SnapOK c.left ∧ SnapOK c.right ∧ SnapOK c.front ∧ SnapOK c.back

/-- Registry well-formedness: every resident chunk is well-formed. -/
def RegistryWF (m : List ((Int × Int) × Chunk)) : Prop :=
  ∀ k c, mlookup m k = some c → ChunkWF c

/-- Helper: an absent snapshot is well-formed. -/
theorem snapOK_none : SnapOK none := fun _ h => nomatch h

/-- Helper: a present snapshot carrying a full or empty array is
well-formed. -/
theorem snapOK_some (v : List Nat) (h : v.length = 65536 ∨ v = []) : SnapOK (some v) := by
  intro u hu
  cases hu
  exact h

/-- Helper: the generated voxel array always has the full chunk size. -/
theorem generate_blocks_length (hfn : Int → Int → Int) (wp : Int × Int) :
    (Chunk.generate_blocks hfn wp).length = 65536 := by
  unfold Chunk.generate_blocks
  refine foldl_inv (fun (b : List Nat) => b.length = 65536) _ (List.range 16) _ ?_ ?_
  · show (List.replicate Chunk.SIZE.toNat Block.Air.id).length = 65536
    rw [List.length_replicate]
    rfl
  · intro b xi hb
    show ((List.range 16).foldl _ b).length = 65536
    rw [inner_fold_length]
    exact hb

/-- Helper: a freshly constructed chunk is well-formed. -/
theorem chunkWF_new (hfn : Int → Int → Int) (lp : Int × Int) : ChunkWF (Chunk.new hfn lp) :=
  ⟨generate_blocks_length hfn _, snapOK_none, snapOK_none, snapOK_none, snapOK_none⟩

/-- Helper: inserting a well-formed chunk preserves registry
well-formedness. -/
theorem registryWF_minsert (m : List ((Int × Int) × Chunk)) (k : Int × Int) (c : Chunk)
    (hm : RegistryWF m) (hc : ChunkWF c) : RegistryWF (minsert m k c) := by
  intro k' c' h
  rw [mlookup_minsert] at h
  split at h
  · cases h
    exact hc
  · exact hm k' c' h

/-- Helper: the per-tick chunk driver only touches mesh state, preserving
chunk well-formedness. -/
theorem chunkWF_update (recv : Option ChunkMesh) (c : Chunk) (h : ChunkWF c) :
    ChunkWF (Chunk.update recv c) := by
  cases recv with
  | some mesh => exact ⟨h.1, h.2.1, h.2.2.1, h.2.2.2.1, h.2.2.2.2⟩
  | none =>
    simp only [Chunk.update, Chunk.generate_mesh]
    split
    · split
      · exact ⟨h.1, h.2.1, h.2.2.1, h.2.2.2.1, h.2.2.2.2⟩
      · exact h
    · exact h

/-- Helper: snapshot resolution installs only full copies of resident
chunks, preserving chunk well-formedness. -/
theorem resolve_snapshot_wf (m : List ((Int × Int) × Chunk)) (k : Int × Int) (ch : Chunk)
    (hm : RegistryWF m) (hch : ChunkWF ch) : ChunkWF (World.resolve_snapshot m k ch) := by
  unfold World.resolve_snapshot
  split_ifs with h1 h2 h3 h4
  · rcases hn : mlookup m (k.1 - 1, k.2) with _ | n
    · exact hch
    · exact ⟨hch.1, snapOK_some _ (Or.inl (hm _ _ hn).1), hch.2.2.1, hch.2.2.2.1, hch.2.2.2.2⟩
  · rcases hn : mlookup m (k.1 + 1, k.2) with _ | n
    · exact hch
    · exact ⟨hch.1, hch.2.1, snapOK_some _ (Or.inl (hm _ _ hn).1), hch.2.2.2.1, hch.2.2.2.2⟩
  · rcases hn : mlookup m (k.1, k.2 - 1) with _ | n
    · exact hch
    · exact ⟨hch.1, hch.2.1, hch.2.2.1, snapOK_some _ (Or.inl (hm _ _ hn).1), hch.2.2.2.2⟩
  · rcases hn : mlookup m (k.1, k.2 + 1) with _ | n
    · exact hch
    · exact ⟨hch.1, hch.2.1, hch.2.2.1, hch.2.2.2.1, snapOK_some _ (Or.inl (hm _ _ hn).1)⟩
  · exact hch

/-- Helper: buffer reconciliation leaves the chunk's voxels and snapshots
intact. -/
theorem reconcile_buffer_chunk_wf (bufs next : List ((Int × Int) × ChunkBuffer)) (vc : Nat)
    (k : Int × Int) (ch : Chunk) (h : ChunkWF ch) :
    ChunkWF (World.reconcile_buffer bufs next vc k ch).2.2 := by
  unfold World.reconcile_buffer
  rcases mlookup bufs k with _ | b <;> dsimp only <;> split
  · exact ⟨h.1, h.2.1, h.2.2.1, h.2.2.2.1, h.2.2.2.2⟩
  · exact h
  · exact ⟨h.1, h.2.1, h.2.2.1, h.2.2.2.1, h.2.2.2.2⟩
  · exact h

/-- Helper: one cell of the update loop preserves registry
well-formedness. -/
theorem update_cell_wf (hfn : Int → Int → Int) (recv : Int × Int → Option ChunkMesh)
    (acc : UpdateAcc) (k : Int × Int) (hm : RegistryWF acc.chunks) :
    RegistryWF (World.update_cell hfn recv acc k).chunks := by
  simp only [World.update_cell]
  rcases hmk : mlookup acc.chunks k with _ | ch
  · simp only [hmk]
    have hm' : RegistryWF (minsert acc.chunks k (Chunk.new hfn k)) :=
      registryWF_minsert _ _ _ hm (chunkWF_new hfn k)
    exact registryWF_minsert _ _ _ hm'
      (reconcile_buffer_chunk_wf _ _ _ _ _
        (chunkWF_update _ _ (resolve_snapshot_wf _ _ _ hm' (chunkWF_new hfn k))))
  · simp only [hmk]
    exact registryWF_minsert _ _ _ hm
      (reconcile_buffer_chunk_wf _ _ _ _ _
        (chunkWF_update _ _ (resolve_snapshot_wf _ _ _ hm (hm _ _ hmk))))

/-- Helper: initial generation preserves registry well-formedness — every
snapshot it installs is a resident chunk's full array or the empty array. -/
theorem generate_wf (hfn : Int → Int → Int) (p : ℚ × ℚ) (w : World)
    (hm : RegistryWF w.chunks) : RegistryWF (World.generate hfn p w).chunks := by
  simp only [World.generate]
  refine foldl_inv (fun (m : List ((Int × Int) × Chunk)) => RegistryWF m) _ _ _ ?_ ?_
  · refine foldl_inv (fun (m : List ((Int × Int) × Chunk)) => RegistryWF m) _ _ _ hm ?_
    intro m x hmx
    refine foldl_inv (fun (m : List ((Int × Int) × Chunk)) => RegistryWF m) _ _ _ hmx ?_
    intro m z hmz
    exact registryWF_minsert _ _ _ hmz (chunkWF_new hfn _)
  · intro m kk hmm
    rcases hk : mlookup m kk with _ | ch
    · simp only [hk]
      exact hmm
    · simp only [hk]
      apply registryWF_minsert _ _ _ hmm
      refine ⟨(hmm _ _ hk).1, ?_, ?_, ?_, ?_⟩
      · apply snapOK_some
        rcases hn : mlookup m (kk.1 - 1, kk.2) with _ | n
        · simp [hn]
        · simp only [hn]
          exact Or.inl (hmm _ _ hn).1
      · apply snapOK_some
        rcases hn : mlookup m (kk.1 + 1, kk.2) with _ | n
        · simp [hn]
        · simp only [hn]
          exact Or.inl (hmm _ _ hn).1
      · apply snapOK_some
        rcases hn : mlookup m (kk.1, kk.2 - 1) with _ | n
        · simp [hn]
        · simp only [hn]
          exact Or.inl (hmm _ _ hn).1
      · apply snapOK_some
        rcases hn : mlookup m (kk.1, kk.2 + 1) with _ | n
        · simp [hn]
        · simp only [hn]
          exact Or.inl (hmm _ _ hn).1

/-- Helper: a streaming tick preserves registry well-formedness. -/
theorem update_registry_wf (hfn : Int → Int → Int) (recv : Int × Int → Option ChunkMesh)
    (p : ℚ × ℚ) (w : World) (hm : RegistryWF w.chunks) :
    RegistryWF (World.update hfn recv p w).chunks := by
  simp only [World.update]
  exact foldl_inv (fun (acc : UpdateAcc) => RegistryWF acc.chunks) _ _ _ hm
    (fun acc k ha => update_cell_wf hfn recv acc k ha)

/-- Helper: the neighbor-invalidation ladder preserves registry
well-formedness — it only sets one snapshot of one resident chunk to
absent. -/
theorem invalidate_neighbors_wf (m : List ((Int × Int) × Chunk)) (cx cz lx lz : Int)
    (hm : RegistryWF m) : RegistryWF (World.invalidate_neighbors m cx cz lx lz) := by
  unfold World.invalidate_neighbors
  split_ifs
  · rcases hn : mlookup m (cx - 1, cz) with _ | n
    · simp only [hn]
      exact hm
    · simp only [hn]
      exact registryWF_minsert _ _ _ hm
        ⟨(hm _ _ hn).1, (hm _ _ hn).2.1, snapOK_none, (hm _ _ hn).2.2.2.1,
          (hm _ _ hn).2.2.2.2⟩
  · rcases hn : mlookup m (cx + 1, cz) with _ | n
    · simp only [hn]
      exact hm
    · simp only [hn]
      exact registryWF_minsert _ _ _ hm
        ⟨(hm _ _ hn).1, snapOK_none, (hm _ _ hn).2.2.1, (hm _ _ hn).2.2.2.1,
          (hm _ _ hn).2.2.2.2⟩
  · rcases hn : mlookup m (cx, cz - 1) with _ | n
    · simp only [hn]
      exact hm
    · simp only [hn]
      exact registryWF_minsert _ _ _ hm
        ⟨(hm _ _ hn).1, (hm _ _ hn).2.1, (hm _ _ hn).2.2.1, (hm _ _ hn).2.2.2.1,
          snapOK_none⟩
  · rcases hn : mlookup m (cx, cz + 1) with _ | n
    · simp only [hn]
      exact hm
    · simp only [hn]
      exact registryWF_minsert _ _ _ hm
        ⟨(hm _ _ hn).1, (hm _ _ hn).2.1, (hm _ _ hn).2.2.1, snapOK_none,
          (hm _ _ hn).2.2.2.2⟩
  · exact hm

/-- Helper: a block placement preserves registry well-formedness — the edit
writes one voxel in place and clears at most one snapshot to absent. -/
theorem place_block_wf (bid : Nat) (t : Option Target) (w w' : World)
    (hm : RegistryWF w.chunks) (h : World.place_block bid t w = some w') :
    RegistryWF w'.chunks := by
  rcases t with _ | t
  · simp only [World.place_block] at h
    cases h
    exact hm
  · simp only [World.place_block] at h
    rcases hds : World.derived_spot t with _ | s
    · simp only [hds] at h
      cases h
      exact hm
    · simp only [hds] at h
      rcases hgc : World.get_chunk w s.1 s.2.1 s.2.2 with _ | ch
      · simp only [hgc] at h
        exact nomatch h
      · simp only [hgc] at h
        have hch : ChunkWF ch := by
          have hgc' := hgc
          simp only [World.get_chunk] at hgc'
          exact hm _ _ hgc'
        have hm1 : RegistryWF (minsert w.chunks
            (Int.fdiv s.1 Chunk.WIDTH, Int.fdiv s.2.2 Chunk.DEPTH)
            (Chunk.place_block_at_world_position bid s ch)) := by
          apply registryWF_minsert _ _ _ hm
          refine ⟨?_, hch.2.1, hch.2.2.1, hch.2.2.2.1, hch.2.2.2.2⟩
          show (ch.blocks.set _ bid).length = 65536
          rw [List.length_set]
          exact hch.1
        cases h
        exact invalidate_neighbors_wf _ _ _ _ _ hm1

/-- C8 amended: a resident chunk's neighbor-edge snapshot is always absent, a
full 65536-element copy of the neighbor's voxel array, or the empty array
(which `World::generate` installs for chunks on the window border whose
neighbor does not exist, and which behaves as all-air under the safe
out-of-bounds default) — never any other partial state.  The invariant holds
for the fresh world and is preserved by generation, by streaming ticks, and
by block placement. -/
theorem snapshot_absent_full_or_empty :
    ∀ (hfn : Int → Int → Int) (recv : Int × Int → Option ChunkMesh) (p : ℚ × ℚ)
      (w w' : World) (bid : Nat) (t : Option Target) (r : Int),
      RegistryWF (World.new r).chunks
      ∧ (RegistryWF w.chunks → RegistryWF (World.generate hfn p w).chunks)
      ∧ (RegistryWF w.chunks → RegistryWF (World.update hfn recv p w).chunks)
      ∧ (RegistryWF w.chunks → World.place_block bid t w = some w' →
          RegistryWF w'.chunks) := by
  intro hfn recv p w w' bid t r
  refine ⟨?_, generate_wf hfn p w, update_registry_wf hfn recv p w,
    fun hm h => place_block_wf bid t w w' hm h⟩
  intro k c h
  exact nomatch h

/-- Witness for the amended C8: the registry after one tick on the fresh
world is well-formed. -/
theorem snapshot_absent_full_or_empty_witness :
    RegistryWF (World.update (fun _ _ => 64) (fun _ => none) ((0 : ℚ), (0 : ℚ))
      (World.new 0)).chunks :=
  (snapshot_absent_full_or_empty (fun _ _ => 64) (fun _ => none) ((0 : ℚ), (0 : ℚ))
      (World.new 0) (World.new 0) 0 none 0).2.2.1 (fun _ _ h => nomatch h)

/-- Helper: the invalidation ladder leaves every key other than the four
potential neighbors untouched. -/
theorem invalidate_neighbors_lookup_other (m : List ((Int × Int) × Chunk))
    (cx cz lx lz : Int) (j : Int × Int) (h1 : j ≠ (cx - 1, cz)) (h2 : j ≠ (cx + 1, cz))
    (h3 : j ≠ (cx, cz - 1)) (h4 : j ≠ (cx, cz + 1)) :
    mlookup (World.invalidate_neighbors m cx cz lx lz) j = mlookup m j := by
  unfold World.invalidate_neighbors
  split_ifs
  · rcases hn : mlookup m (cx - 1, cz) with _ | n <;> simp only [hn]
    rw [mlookup_minsert, if_neg (fun he => h1 he.symm)]
  · rcases hn : mlookup m (cx + 1, cz) with _ | n <;> simp only [hn]
    rw [mlookup_minsert, if_neg (fun he => h2 he.symm)]
  · rcases hn : mlookup m (cx, cz - 1) with _ | n <;> simp only [hn]
    rw [mlookup_minsert, if_neg (fun he => h3 he.symm)]
  · rcases hn : mlookup m (cx, cz + 1) with _ | n <;> simp only [hn]
    rw [mlookup_minsert, if_neg (fun he => h4 he.symm)]
  · rfl

/-- Helper: an interior edit runs the whole ladder to its final arm, leaving
the registry untouched. -/
theorem invalidate_neighbors_interior (m : List ((Int × Int) × Chunk)) (cx cz lx lz : Int)
    (h1 : lx ≠ 0) (h2 : lx ≠ Chunk.WIDTH - 1) (h3 : lz ≠ 0) (h4 : lz ≠ Chunk.DEPTH - 1) :
    World.invalidate_neighbors m cx cz lx lz = m := by
  unfold World.invalidate_neighbors
  rw [if_neg h1, if_neg h2, if_neg h3, if_neg h4]

/-- C6: scope of a `place_block` edit that resolves to a cell owned by the
resident chunk `ch` (stored, as the streaming loop always stores it, under
its own chunk coordinate).  The owning chunk alone has its voxel array
written (plus the remesh mark), its own snapshots untouched; then the single
if/else-if ladder fires at most one invalidation: local x = 0 clears exactly
the (cx-1, cz) neighbor's right snapshot, local x = WIDTH-1 exactly
(cx+1, cz)'s left snapshot, and — only when local x is interior — local
z = 0 (resp. DEPTH-1) clears exactly the z-neighbor's back (resp. front)
snapshot; an interior edit changes no chunk but the owner.  In every case all
other registry entries are untouched. -/
theorem edit_invalidation_scope :
    ∀ (bid : Nat) (w : World) (t : Target) (s : Int × Int × Int) (ch : Chunk) (w2 : World),
      World.derived_spot t = some s →
      mlookup w.chunks (Int.fdiv s.1 Chunk.WIDTH, Int.fdiv s.2.2 Chunk.DEPTH) = some ch →
      ch.local_position = (Int.fdiv s.1 Chunk.WIDTH, Int.fdiv s.2.2 Chunk.DEPTH) →
      World.place_block bid (some t) w = some w2 →
      (mlookup w2.chunks (Int.fdiv s.1 Chunk.WIDTH, Int.fdiv s.2.2 Chunk.DEPTH) =
          some (Chunk.place_block_at_world_position bid s ch)
        ∧ (Chunk.place_block_at_world_position bid s ch).blocks
            = ch.blocks.set (Chunk.xyz_to_index (s.1 - ch.world_position.1) s.2.1
                (s.2.2 - ch.world_position.2)) bid
        ∧ (Chunk.place_block_at_world_position bid s ch).left = ch.left
        ∧ (Chunk.place_block_at_world_position bid s ch).right = ch.right
        ∧ (Chunk.place_block_at_world_position bid s ch).front = ch.front
        ∧ (Chunk.place_block_at_world_position bid s ch).back = ch.back)
      ∧ (|s.1 - ch.world_position.1| = 0 →
          (∀ n, mlookup w.chunks (ch.local_position.1 - 1, ch.local_position.2) = some n →
            mlookup w2.chunks (ch.local_position.1 - 1, ch.local_position.2)
              = some (Chunk.clear_right n)
            ∧ (Chunk.clear_right n).right = none ∧ (Chunk.clear_right n).left = n.left
            ∧ (Chunk.clear_right n).front = n.front ∧ (Chunk.clear_right n).back = n.back
            ∧ (Chunk.clear_right n).blocks = n.blocks)
          ∧ (∀ j : Int × Int, j ≠ (Int.fdiv s.1 Chunk.WIDTH, Int.fdiv s.2.2 Chunk.DEPTH) →
              j ≠ (ch.local_position.1 - 1, ch.local_position.2) →
              mlookup w2.chunks j = mlookup w.chunks j))
      ∧ (|s.1 - ch.world_position.1| ≠ 0 → |s.1 - ch.world_position.1| = Chunk.WIDTH - 1 →
          (∀ n, mlookup w.chunks (ch.local_position.1 + 1, ch.local_position.2) = some n →
            mlookup w2.chunks (ch.local_position.1 + 1, ch.local_position.2)
              = some (Chunk.clear_left n)
            ∧ (Chunk.clear_left n).left = none ∧ (Chunk.clear_left n).right = n.right
            ∧ (Chunk.clear_left n).front = n.front ∧ (Chunk.clear_left n).back = n.back
            ∧ (Chunk.clear_left n).blocks = n.blocks)
          ∧ (∀ j : Int × Int, j ≠ (Int.fdiv s.1 Chunk.WIDTH, Int.fdiv s.2.2 Chunk.DEPTH) →
              j ≠ (ch.local_position.1 + 1, ch.local_position.2) →
              mlookup w2.chunks j = mlookup w.chunks j))
      ∧ (|s.1 - ch.world_position.1| ≠ 0 → |s.1 - ch.world_position.1| ≠ Chunk.WIDTH - 1 →
          |s.2.2 - ch.world_position.2| = 0 →
          (∀ n, mlookup w.chunks (ch.local_position.1, ch.local_position.2 - 1) = some n →
            mlookup w2.chunks (ch.local_position.1, ch.local_position.2 - 1)
              = some (Chunk.clear_back n)
            ∧ (Chunk.clear_back n).back = none ∧ (Chunk.clear_back n).left = n.left
            ∧ (Chunk.clear_back n).right = n.right ∧ (Chunk.clear_back n).front = n.front
            ∧ (Chunk.clear_back n).blocks = n.blocks)
          ∧ (∀ j : Int × Int, j ≠ (Int.fdiv s.1 Chunk.WIDTH, Int.fdiv s.2.2 Chunk.DEPTH) →
              j ≠ (ch.local_position.1, ch.local_position.2 - 1) →
              mlookup w2.chunks j = mlookup w.chunks j))
      ∧ (|s.1 - ch.world_position.1| ≠ 0 → |s.1 - ch.world_position.1| ≠ Chunk.WIDTH - 1 →
          |s.2.2 - ch.world_position.2| ≠ 0 →
          |s.2.2 - ch.world_position.2| = Chunk.DEPTH - 1 →
          (∀ n, mlookup w.chunks (ch.local_position.1, ch.local_position.2 + 1) = some n →
            mlookup w2.chunks (ch.local_position.1, ch.local_position.2 + 1)
              = some (Chunk.clear_front n)
            ∧ (Chunk.clear_front n).front = none ∧ (Chunk.clear_front n).left = n.left
            ∧ (Chunk.clear_front n).right = n.right ∧ (Chunk.clear_front n).back = n.back
            ∧ (Chunk.clear_front n).blocks = n.blocks)
          ∧ (∀ j : Int × Int, j ≠ (Int.fdiv s.1 Chunk.WIDTH, Int.fdiv s.2.2 Chunk.DEPTH) →
              j ≠ (ch.local_position.1, ch.local_position.2 + 1) →
              mlookup w2.chunks j = mlookup w.chunks j))
      ∧ (|s.1 - ch.world_position.1| ≠ 0 → |s.1 - ch.world_position.1| ≠ Chunk.WIDTH - 1 →
          |s.2.2 - ch.world_position.2| ≠ 0 →
          |s.2.2 - ch.world_position.2| ≠ Chunk.DEPTH - 1 →
          ∀ j : Int × Int, j ≠ (Int.fdiv s.1 Chunk.WIDTH, Int.fdiv s.2.2 Chunk.DEPTH) →
            mlookup w2.chunks j = mlookup w.chunks j) := by
  intro bid w t s ch w2 hds hc hlp hpl
  simp only [World.place_block, hds, World.get_chunk, hc] at hpl
  cases hpl
  have hcx : ch.local_position.1 = Int.fdiv s.1 Chunk.WIDTH := by rw [hlp]
  have hcz : ch.local_position.2 = Int.fdiv s.2.2 Chunk.DEPTH := by rw [hlp]
  have hneL : ((Int.fdiv s.1 Chunk.WIDTH, Int.fdiv s.2.2 Chunk.DEPTH) : Int × Int)
      ≠ (ch.local_position.1 - 1, ch.local_position.2) := by
    intro he
    rw [Prod.ext_iff] at he
    have := he.1
    omega
  have hneR : ((Int.fdiv s.1 Chunk.WIDTH, Int.fdiv s.2.2 Chunk.DEPTH) : Int × Int)
      ≠ (ch.local_position.1 + 1, ch.local_position.2) := by
    intro he
    rw [Prod.ext_iff] at he
    have := he.1
    omega
  have hneF : ((Int.fdiv s.1 Chunk.WIDTH, Int.fdiv s.2.2 Chunk.DEPTH) : Int × Int)
      ≠ (ch.local_position.1, ch.local_position.2 - 1) := by
    intro he
    rw [Prod.ext_iff] at he
    have := he.2
    omega
  have hneB : ((Int.fdiv s.1 Chunk.WIDTH, Int.fdiv s.2.2 Chunk.DEPTH) : Int × Int)
      ≠ (ch.local_position.1, ch.local_position.2 + 1) := by
    intro he
    rw [Prod.ext_iff] at he
    have := he.2
    omega
  refine ⟨⟨?_, rfl, rfl, rfl, rfl, rfl⟩, ?_, ?_, ?_, ?_, ?_⟩
  · rw [invalidate_neighbors_lookup_other _ _ _ _ _ _ hneL hneR hneF hneB,
      mlookup_minsert, if_pos rfl]
  · intro hlx
    constructor
    · intro n hn
      have hM1 : mlookup (minsert w.chunks (Int.fdiv s.1 Chunk.WIDTH, Int.fdiv s.2.2 Chunk.DEPTH)
          (Chunk.place_block_at_world_position bid s ch))
          (ch.local_position.1 - 1, ch.local_position.2) = some n := by
        rw [mlookup_minsert, if_neg hneL]
        exact hn
      refine ⟨?_, rfl, rfl, rfl, rfl, rfl⟩
      show mlookup (World.invalidate_neighbors _ _ _ _ _) _ = _
      unfold World.invalidate_neighbors
      rw [if_pos hlx]
      simp only [hM1]
      rw [mlookup_minsert, if_pos rfl]
    · intro j hj1 hj2
      show mlookup (World.invalidate_neighbors _ _ _ _ _) _ = _
      unfold World.invalidate_neighbors
      rw [if_pos hlx]
      have hM1 : ∀ v, mlookup (minsert (minsert w.chunks
          (Int.fdiv s.1 Chunk.WIDTH, Int.fdiv s.2.2 Chunk.DEPTH)
          (Chunk.place_block_at_world_position bid s ch))
          (ch.local_position.1 - 1, ch.local_position.2) v) j = mlookup w.chunks j := by
        intro v
        rw [mlookup_minsert, if_neg (fun he => hj2 he.symm), mlookup_minsert,
          if_neg (fun he => hj1 he.symm)]
      rcases hn : mlookup (minsert w.chunks
          (Int.fdiv s.1 Chunk.WIDTH, Int.fdiv s.2.2 Chunk.DEPTH)
          (Chunk.place_block_at_world_position bid s ch))
          (ch.local_position.1 - 1, ch.local_position.2) with _ | n <;> simp only [hn]
      · rw [mlookup_minsert, if_neg (fun he => hj1 he.symm)]
      · exact hM1 (Chunk.clear_right n)
  · intro hlx hlx15
    constructor
    · intro n hn
      have hM1 : mlookup (minsert w.chunks (Int.fdiv s.1 Chunk.WIDTH, Int.fdiv s.2.2 Chunk.DEPTH)
          (Chunk.place_block_at_world_position bid s ch))
          (ch.local_position.1 + 1, ch.local_position.2) = some n := by
        rw [mlookup_minsert, if_neg hneR]
        exact hn
      refine ⟨?_, rfl, rfl, rfl, rfl, rfl⟩
      show mlookup (World.invalidate_neighbors _ _ _ _ _) _ = _
      unfold World.invalidate_neighbors
      rw [if_neg hlx, if_pos hlx15]
      simp only [hM1]
      rw [mlookup_minsert, if_pos rfl]
    · intro j hj1 hj2
      show mlookup (World.invalidate_neighbors _ _ _ _ _) _ = _
      unfold World.invalidate_neighbors
      rw [if_neg hlx, if_pos hlx15]
      rcases hn : mlookup (minsert w.chunks
          (Int.fdiv s.1 Chunk.WIDTH, Int.fdiv s.2.2 Chunk.DEPTH)
          (Chunk.place_block_at_world_position bid s ch))
          (ch.local_position.1 + 1, ch.local_position.2) with _ | n <;> simp only [hn]
      · rw [mlookup_minsert, if_neg (fun he => hj1 he.symm)]
      · rw [mlookup_minsert, if_neg (fun he => hj2 he.symm), mlookup_minsert,
          if_neg (fun he => hj1 he.symm)]
  · intro hlx hlx15 hlz
    constructor
    · intro n hn
      have hM1 : mlookup (minsert w.chunks (Int.fdiv s.1 Chunk.WIDTH, Int.fdiv s.2.2 Chunk.DEPTH)
          (Chunk.place_block_at_world_position bid s ch))
          (ch.local_position.1, ch.local_position.2 - 1) = some n := by
        rw [mlookup_minsert, if_neg hneF]
        exact hn
      refine ⟨?_, rfl, rfl, rfl, rfl, rfl⟩
      show mlookup (World.invalidate_neighbors _ _ _ _ _) _ = _
      unfold World.invalidate_neighbors
      rw [if_neg hlx, if_neg hlx15, if_pos hlz]
      simp only [hM1]
      rw [mlookup_minsert, if_pos rfl]
    · intro j hj1 hj2
      show mlookup (World.invalidate_neighbors _ _ _ _ _) _ = _
      unfold World.invalidate_neighbors
      rw [if_neg hlx, if_neg hlx15, if_pos hlz]
      rcases hn : mlookup (minsert w.chunks
          (Int.fdiv s.1 Chunk.WIDTH, Int.fdiv s.2.2 Chunk.DEPTH)
          (Chunk.place_block_at_world_position bid s ch))
          (ch.local_position.1, ch.local_position.2 - 1) with _ | n <;> simp only [hn]
      · rw [mlookup_minsert, if_neg (fun he => hj1 he.symm)]
      · rw [mlookup_minsert, if_neg (fun he => hj2 he.symm), mlookup_minsert,
          if_neg (fun he => hj1 he.symm)]
  · intro hlx hlx15 hlz hlz15
    constructor
    · intro n hn
      have hM1 : mlookup (minsert w.chunks (Int.fdiv s.1 Chunk.WIDTH, Int.fdiv s.2.2 Chunk.DEPTH)
          (Chunk.place_block_at_world_position bid s ch))
          (ch.local_position.1, ch.local_position.2 + 1) = some n := by
        rw [mlookup_minsert, if_neg hneB]
        exact hn
      refine ⟨?_, rfl, rfl, rfl, rfl, rfl⟩
      show mlookup (World.invalidate_neighbors _ _ _ _ _) _ = _
      unfold World.invalidate_neighbors
      rw [if_neg hlx, if_neg hlx15, if_neg hlz, if_pos hlz15]
      simp only [hM1]
      rw [mlookup_minsert, if_pos rfl]
    · intro j hj1 hj2
      show mlookup (World.invalidate_neighbors _ _ _ _ _) _ = _
      unfold World.invalidate_neighbors
      rw [if_neg hlx, if_neg hlx15, if_neg hlz, if_pos hlz15]
      rcases hn : mlookup (minsert w.chunks
          (Int.fdiv s.1 Chunk.WIDTH, Int.fdiv s.2.2 Chunk.DEPTH)
          (Chunk.place_block_at_world_position bid s ch))
          (ch.local_position.1, ch.local_position.2 + 1) with _ | n <;> simp only [hn]
      · rw [mlookup_minsert, if_neg (fun he => hj1 he.symm)]
      · rw [mlookup_minsert, if_neg (fun he => hj2 he.symm), mlookup_minsert,
          if_neg (fun he => hj1 he.symm)]
  · intro hlx hlx15 hlz hlz15 j hj
    show mlookup (World.invalidate_neighbors _ _ _ _ _) _ = _
    rw [invalidate_neighbors_interior _ _ _ _ _ hlx hlx15 hlz hlz15,
      mlookup_minsert, if_neg (fun he => hj he.symm)]

/-- Witness for C6: an interior edit (local coordinates (5, 5)) on a
single-chunk world changes no registry entry other than the owner's. -/
theorem edit_invalidation_scope_witness :
    mlookup (World.invalidate_neighbors
        (minsert [((0, 0), Chunk.new (fun _ _ => 64) (0, 0))]
          (Int.fdiv 5 Chunk.WIDTH, Int.fdiv 5 Chunk.DEPTH)
          (Chunk.place_block_at_world_position 3 (5, 10 + 1, 5)
            (Chunk.new (fun _ _ => 64) (0, 0))))
        (Chunk.new (fun _ _ => 64) (0, 0)).local_position.1
        (Chunk.new (fun _ _ => 64) (0, 0)).local_position.2
        |5 - (Chunk.new (fun _ _ => 64) (0, 0)).world_position.1|
        |5 - (Chunk.new (fun _ _ => 64) (0, 0)).world_position.2|) (9, 9)
      = mlookup [((0, 0), Chunk.new (fun _ _ => 64) (0, 0))] (9, 9) :=
  (edit_invalidation_scope 3
      { chunks := [((0, 0), Chunk.new (fun _ _ => 64) (0, 0))], render_distance := 0,
        buffers := [], vertex_count := 0 }
      { position := (5, 10, 5), face := BlockFace.Top, name := "grass" }
      (5, 10 + 1, 5) (Chunk.new (fun _ _ => 64) (0, 0))
      { chunks := World.invalidate_neighbors
          (minsert [((0, 0), Chunk.new (fun _ _ => 64) (0, 0))]
            (Int.fdiv 5 Chunk.WIDTH, Int.fdiv 5 Chunk.DEPTH)
            (Chunk.place_block_at_world_position 3 (5, 10 + 1, 5)
              (Chunk.new (fun _ _ => 64) (0, 0))))
          (Chunk.new (fun _ _ => 64) (0, 0)).local_position.1
          (Chunk.new (fun _ _ => 64) (0, 0)).local_position.2
          |5 - (Chunk.new (fun _ _ => 64) (0, 0)).world_position.1|
          |5 - (Chunk.new (fun _ _ => 64) (0, 0)).world_position.2|,
        render_distance := 0, buffers := [], vertex_count := 0 }
      rfl rfl rfl rfl).2.2.2.2.2
    (by decide) (by decide) (by decide) (by decide) (9, 9) (by decide)
